import Mathlib

/-!
# ElementTextItem: anchor-stable positioning, XML attributes and drag protocol

A shallow embedding of `sources/elementtextitem.cpp` (QElectroTech).

Modelling conventions.

* A `qreal` is a rational number, and the result of every arithmetic operation
  on `qreal` values goes through the rounding `fl` of the toolkit.  With the
  rounding of binary64 (`roundDouble`, nearest, ties to even, range of the
  exponent not bounded) the operations are those of the machine; with the
  identity they are exact.
* The object state is passed explicitly: every `void` method of the C++ class is
  a function from states to states.
* Functions of the GUI library that the source calls (`QTransform`,
  `QGraphicsItem::setPos`, `QGraphicsItem::setTransform`, `qFuzzyCompare`, the
  comparison of `QPointF`) are written out after the documented behaviour of the
  library.  Functions whose result is not fixed by the arithmetic (string/number
  conversion, sine and cosine, text layout) are fields of a `Toolkit` record
  that the operations take as an argument; the frame mappings of the base class
  and the methods of the diagram are taken as arguments in the same way.
-/

namespace QET

/-! ## Numbers, points and affine transforms -/

/-- External functions of the toolkit that the source does not determine. -/
structure Toolkit where
  /-- The rounding of the result of an arithmetic operation to a `qreal`. -/
  fl : ℚ → ℚ
  /-- The call `QString::toDouble(&ok)`: `none` when the conversion fails. -/
  toDouble : String → Option ℚ
  /-- The call `QString("%1").arg(v)` for a `qreal` `v`. -/
  arg : ℚ → String
  /-- The value `qSin(deg2rad * a)` used by `QTransform::rotate`. -/
  sinDeg : ℚ → ℚ
  /-- The value `qCos(deg2rad * a)` used by `QTransform::rotate`. -/
  cosDeg : ℚ → ℚ
  /-- The layout: `boundingRect().bottom()` of an item showing the given text. -/
  boundingBottomOf : String → ℚ
  /-- The layout: `document()->blockCount()` for the given plain text. -/
  blockCountOf : String → Nat

namespace Toolkit

/-- The sum of two `qreal` values. -/
def add (tk : Toolkit) (a b : ℚ) : ℚ := tk.fl (a + b)

/-- The difference of two `qreal` values. -/
def sub (tk : Toolkit) (a b : ℚ) : ℚ := tk.fl (a - b)

/-- The product of two `qreal` values. -/
def mul (tk : Toolkit) (a b : ℚ) : ℚ := tk.fl (a * b)

/-- The quotient of two `qreal` values. -/
def div (tk : Toolkit) (a b : ℚ) : ℚ := tk.fl (a / b)

/-- The constant `0.000000000001` of the fuzzy comparisons, as a `qreal`. -/
def epsilon (tk : Toolkit) : ℚ := tk.fl (1 / 1000000000000)

end Toolkit

/-- The class `QPointF`: a point of the plane. -/
structure QPointF where
  x : ℚ
  y : ℚ
deriving DecidableEq, Repr

/-- The function `qFuzzyIsNull(double)` of the toolkit:
`qAbs(d) <= 0.000000000001`. -/
def qFuzzyIsNull (tk : Toolkit) (d : ℚ) : Bool :=
  decide (|d| ≤ tk.epsilon)

/-- The function `qFuzzyCompare(double, double)` of the toolkit:
`qAbs(p1 - p2) <= 0.000000000001 * qMin(qAbs(p1), qAbs(p2))`. -/
def qFuzzyCompare (tk : Toolkit) (p1 p2 : ℚ) : Bool :=
  decide (|tk.sub p1 p2| ≤ tk.mul tk.epsilon (min |p1| |p2|))

namespace QPointF

/-- The operator `+` of `QPointF`. -/
def add (tk : Toolkit) (p q : QPointF) : QPointF := ⟨tk.add p.x q.x, tk.add p.y q.y⟩

/-- The operator `-` of `QPointF`. -/
def sub (tk : Toolkit) (p q : QPointF) : QPointF := ⟨tk.sub p.x q.x, tk.sub p.y q.y⟩

/-- The operator `!=` of `QPointF`:
`!qFuzzyIsNull(p1.xp - p2.xp) || !qFuzzyIsNull(p1.yp - p2.yp)`. -/
def ne (tk : Toolkit) (p1 p2 : QPointF) : Bool :=
  !qFuzzyIsNull tk (tk.sub p1.x p2.x) || !qFuzzyIsNull tk (tk.sub p1.y p2.y)

/-- The method `QPointF::isNull()`: both coordinates are zero. -/
def isNull (p : QPointF) : Bool := decide (p.x = 0) && decide (p.y = 0)

/-- The default constructed point `QPointF()`. -/
def zero : QPointF := ⟨0, 0⟩

end QPointF

/-- The affine part of a `QTransform`. A point `(x, y)` is mapped to
`(m11*x + m21*y + dx, m12*x + m22*y + dy)`. -/
structure QTransform where
  m11 : ℚ
  m12 : ℚ
  m21 : ℚ
  m22 : ℚ
  dx : ℚ
  dy : ℚ
deriving DecidableEq, Repr

namespace QTransform

/-- The identity transform `QTransform()`. -/
def identity : QTransform := ⟨1, 0, 0, 1, 0, 0⟩

/-- The method `QTransform::map(QPointF)`:
`x' = m11*x + m21*y + dx`, `y' = m12*x + m22*y + dy`. -/
def map (tk : Toolkit) (t : QTransform) (p : QPointF) : QPointF :=
  ⟨tk.add (tk.add (tk.mul t.m11 p.x) (tk.mul t.m21 p.y)) t.dx,
   tk.add (tk.add (tk.mul t.m12 p.x) (tk.mul t.m22 p.y)) t.dy⟩

/-- The method `QTransform::translate(dx, dy)`: the coordinate system is moved
along its own axes, `_dx += dx*_m11 + dy*_m21`, `_dy += dy*_m22 + dx*_m12`. -/
def translate (tk : Toolkit) (dx dy : ℚ) (t : QTransform) : QTransform :=
  { t with dx := tk.add t.dx (tk.add (tk.mul dx t.m11) (tk.mul dy t.m21))
           dy := tk.add t.dy (tk.add (tk.mul dy t.m22) (tk.mul dx t.m12)) }

/-- The sine and cosine picked by `QTransform::rotate(a)`: exact values at the
quarter turns, the toolkit functions elsewhere. -/
def sinCos (tk : Toolkit) (a : ℚ) : ℚ × ℚ :=
  if a = 90 ∨ a = -270 then (1, 0)
  else if a = 270 ∨ a = -90 then (-1, 0)
  else if a = 180 then (0, -1)
  else (tk.sinDeg a, tk.cosDeg a)

/-- The method `QTransform::rotate(a)`, `a` in degrees, about the Z axis. -/
def rotate (tk : Toolkit) (a : ℚ) (t : QTransform) : QTransform :=
  if a = 0 then t
  else
    let sina := (sinCos tk a).1
    let cosa := (sinCos tk a).2
    { t with m11 := tk.add (tk.mul cosa t.m11) (tk.mul sina t.m21)
             m12 := tk.add (tk.mul cosa t.m12) (tk.mul sina t.m22)
             m21 := tk.add (tk.mul (-sina) t.m11) (tk.mul cosa t.m21)
             m22 := tk.add (tk.mul (-sina) t.m12) (tk.mul cosa t.m22) }

/-- The operator `*` of `QTransform`: `mul a b` applies `a` first, then `b`. A
factor that is the identity gives the other factor. -/
def mul (tk : Toolkit) (a b : QTransform) : QTransform :=
  if b = identity then a
  else if a = identity then b
  else
    { m11 := tk.add (tk.mul a.m11 b.m11) (tk.mul a.m12 b.m21)
      m12 := tk.add (tk.mul a.m11 b.m12) (tk.mul a.m12 b.m22)
      m21 := tk.add (tk.mul a.m21 b.m11) (tk.mul a.m22 b.m21)
      m22 := tk.add (tk.mul a.m21 b.m12) (tk.mul a.m22 b.m22)
      dx := tk.add (tk.add (tk.mul a.dx b.m11) (tk.mul a.dy b.m21)) b.dx
      dy := tk.add (tk.add (tk.mul a.dx b.m12) (tk.mul a.dy b.m22)) b.dy }

end QTransform

/-! ## The text item -/

/-- The values of `QGraphicsItem::GraphicsItemChange` that the item can be told. -/
inductive GraphicsItemChange where
  | ItemPositionChange
  | ItemPositionHasChanged
  | ItemTransformChange
  | ItemSceneHasChanged
  | ItemSelectedChange
deriving DecidableEq, Repr

/-- The state of an `ElementTextItem`: the members declared by the class and
the part of the inherited graphics item that the methods read or write. -/
structure ElementTextItem where
  /-- The raw placement `QGraphicsTextItem::pos()`. -/
  rawPos : QPointF
  /-- The current transform `QGraphicsItem::transform()`. -/
  transform : QTransform
  /-- The value `boundingRect().bottom()`. -/
  boundingBottom : ℚ
  /-- The content `toPlainText()`. -/
  text : String
  /-- The angle `rotationAngle()` kept by the base class. -/
  rotation_angle_ : ℚ
  original_position : QPointF
  original_rotation_angle_ : ℚ
  known_position_ : QPointF
  first_move_ : Bool
  /-- The test `flags() & QGraphicsItem::ItemIsMovable`. -/
  movable : Bool
  /-- The test `textInteractionFlags() & Qt::TextEditable`. -/
  textEditable : Bool
  /-- The flag `ItemSendsGeometryChanges`: the item is told position changes. -/
  sendsGeometryChanges : Bool
deriving DecidableEq, Repr

/-- The offset `boundingRect().bottom() / 2.0` between the raw placement and the
anchor. -/
def originOffset (tk : Toolkit) (s : ElementTextItem) : ℚ :=
  tk.div s.boundingBottom 2

/-- The method `ElementTextItem::pos()`: the raw placement moved down by half of
the bounding rectangle bottom. -/
def pos (tk : Toolkit) (s : ElementTextItem) : QPointF :=
  QPointF.add tk s.rawPos ⟨0, originOffset tk s⟩

/-- The method `ElementTextItem::itemChange`: a position or scene change stores
the current `pos()` in `known_position_`; the call is then passed to the base
class, which leaves the members of this class alone. -/
def itemChange (tk : Toolkit) (change : GraphicsItemChange) (s : ElementTextItem) :
    ElementTextItem :=
  if change = GraphicsItemChange.ItemPositionHasChanged
      ∨ change = GraphicsItemChange.ItemSceneHasChanged then
    { s with known_position_ := pos tk s }
  else s

/-- The call `QGraphicsItem::setTransform(matrix, combine)`: with `combine` the
new transform is `matrix * transform()`, without it `matrix`. -/
def setTransform (tk : Toolkit) (matrix : QTransform) (combine : Bool) (s : ElementTextItem) :
    ElementTextItem :=
  itemChange tk GraphicsItemChange.ItemTransformChange
    { s with transform := if combine then QTransform.mul tk matrix s.transform else matrix }

/-- The call `QGraphicsItem::resetTransform()`. -/
def resetTransform (tk : Toolkit) (s : ElementTextItem) : ElementTextItem :=
  setTransform tk QTransform.identity false s

/-- The call `QGraphicsTextItem::setPos(p)` of a base class that stores the
placement exactly as given: nothing happens when the placement is already `p`;
otherwise it is stored and, when the item asked for geometry changes, the
item is told `ItemPositionChange` before and `ItemPositionHasChanged` after. -/
def baseSetPos (tk : Toolkit) (p : QPointF) (s : ElementTextItem) : ElementTextItem :=
  if s.rawPos = p then s
  else if s.sendsGeometryChanges then
    let s1 := itemChange tk GraphicsItemChange.ItemPositionChange s
    itemChange tk GraphicsItemChange.ItemPositionHasChanged { s1 with rawPos := p }
  else { s with rawPos := p }

/-- The transform built by `applyRotation`: translate by `(0, offset)`, rotate,
translate by `(0, -offset)`. -/
def rotationAbout (tk : Toolkit) (angle offset : ℚ) : QTransform :=
  QTransform.translate tk 0 (-offset)
    (QTransform.rotate tk angle (QTransform.translate tk 0 offset QTransform.identity))

/-- The method `ElementTextItem::applyRotation(angle)`. -/
def applyRotation (tk : Toolkit) (angle : ℚ) (s : ElementTextItem) : ElementTextItem :=
  let origin_offset := originOffset tk s
  setTransform tk (rotationAbout tk angle origin_offset) true s

/-- The method `ElementTextItem::setPos(const QPointF &)`. -/
def setPos (tk : Toolkit) (p : QPointF) (s : ElementTextItem) : ElementTextItem :=
  let s1 := resetTransform tk s
  let actual_pos := QPointF.sub tk p ⟨0, originOffset tk s1⟩
  let s2 := baseSetPos tk actual_pos s1
  applyRotation tk s2.rotation_angle_ s2

/-- The method `ElementTextItem::setPos(qreal, qreal)`. -/
def setPosXY (tk : Toolkit) (x y : ℚ) (s : ElementTextItem) : ElementTextItem :=
  setPos tk ⟨x, y⟩ s

/-- The slot `ElementTextItem::adjustItemPosition(int)`. -/
def adjustItemPosition (tk : Toolkit) (_new_block_count : Nat) (s : ElementTextItem) :
    ElementTextItem :=
  setPos tk s.known_position_ s

/-- A change of the bounding rectangle reported by the text layout. -/
def withBoundingBottom (b : ℚ) (s : ElementTextItem) : ElementTextItem :=
  { s with boundingBottom := b }

/-- The value of `pos()` that the arithmetic of `setPos(p)` and `pos()` gives on
an item whose bounding rectangle has the bottom `b`: half of the bottom is
subtracted from the ordinate, then added again. -/
def placedAt (tk : Toolkit) (b : ℚ) (p : QPointF) : QPointF :=
  ⟨tk.add (tk.sub p.x 0) 0, tk.add (tk.sub p.y (tk.div b 2)) (tk.div b 2)⟩

/-! ## XML attributes -/

/-- A `QDomElement`, reduced to its tag name and its attributes. -/
structure QDomElement where
  tagName : String
  attributes : List (String × String)
deriving DecidableEq, Repr

namespace QDomElement

/-- The call `QDomDocument::createElement(tag)`: an element without attributes. -/
def createElement (tag : String) : QDomElement := ⟨tag, []⟩

/-- The method `QDomElement::hasAttribute(name)`. -/
def hasAttribute (e : QDomElement) (name : String) : Bool :=
  (e.attributes.lookup name).isSome

/-- The method `QDomElement::attribute(name)`, whose name is a reserved word
here: the value, or the empty string when the element has no such attribute. -/
def attributeOf (e : QDomElement) (name : String) : String :=
  (e.attributes.lookup name).getD ""

/-- The method `QDomElement::setAttribute(name, value)`: an attribute of that
name is replaced, otherwise the attribute is added. -/
def setAttribute (name value : String) (e : QDomElement) : QDomElement :=
  { e with attributes := e.attributes.filter (fun a => a.1 != name) ++ [(name, value)] }

/-- The method `QDomElement::removeAttribute(name)`. -/
def removeAttribute (name : String) (e : QDomElement) : QDomElement :=
  { e with attributes := e.attributes.filter (fun a => a.1 != name) }

end QDomElement

/-- The call `e.attribute(name).toDouble()` without a status flag: a text that
does not convert gives `0.0`. -/
def attributeToDouble (tk : Toolkit) (e : QDomElement) (name : String) : ℚ :=
  (tk.toDouble (e.attributeOf name)).getD 0

/-- Modelled from the spec: the body of the helper
`QET::attributeIsAReal(e, name, &v)` is not in this file. An optional attribute
counts when it is "present and numeric"; the result is the number read, `none`
stands for the answer `false`. -/
def attributeIsAReal (tk : Toolkit) (e : QDomElement) (name : String) : Option ℚ :=
  if e.hasAttribute name then tk.toDouble (e.attributeOf name) else none

/-- An optional attribute that is missing, or whose text is not a number. -/
def notAReal (tk : Toolkit) (e : QDomElement) (name : String) : Prop :=
  e.hasAttribute name = false ∨ tk.toDouble (e.attributeOf name) = none

/-- Modelled from the spec: the body of the helper `QET::correctAngle` is not
in this file. Angles are "normalized to [0,360)", they are never rejected. -/
def correctAngle (angle : ℚ) : ℚ :=
  angle - 360 * (Rat.floor (angle / 360) : ℚ)

/-- Modelled from the spec: the body of the rotation setter `setRotationAngle`,
a method of the base class `DiagramTextItem`, is not in this file. The angle
is normalised, the item is turned from its current angle to the new one
through `applyRotation`, and the normalised angle is stored. -/
def setRotationAngle (tk : Toolkit) (rotation : ℚ) (s : ElementTextItem) : ElementTextItem :=
  let applied_rotation := correctAngle rotation
  let s1 := applyRotation tk (tk.sub applied_rotation s.rotation_angle_) s
  { s1 with rotation_angle_ := applied_rotation }

/-- The call `setPlainText(t)` of the text item: the text is replaced, the
layout gives the new bounding rectangle, and when the number of blocks has
changed the document emits `blockCountChanged`, which the constructor has
connected to `adjustItemPosition`. -/
def setPlainText (tk : Toolkit) (t : String) (s : ElementTextItem) : ElementTextItem :=
  let s1 := { s with text := t, boundingBottom := tk.boundingBottomOf t }
  if tk.blockCountOf t = tk.blockCountOf s.text then s1
  else adjustItemPosition tk (tk.blockCountOf t) s1

/-- The guard of `fromXml`: the attributes `x` and `y` of the element, read as
numbers, are fuzzily equal to the coordinates of `pos()`. -/
def positionMatches (tk : Toolkit) (e : QDomElement) (s : ElementTextItem) : Bool :=
  qFuzzyCompare tk (attributeToDouble tk e "x") (pos tk s).x &&
    qFuzzyCompare tk (attributeToDouble tk e "y") (pos tk s).y

/-- The method `ElementTextItem::fromXml`. -/
def fromXml (tk : Toolkit) (e : QDomElement) (s : ElementTextItem) : ElementTextItem :=
  if positionMatches tk e s then
    let s1 := setPlainText tk (e.attributeOf "text") s
    let s2 :=
      match attributeIsAReal tk e "userx", attributeIsAReal tk e "usery" with
      | some user_pos_x, some user_pos_y => setPosXY tk user_pos_x user_pos_y s1
      | _, _ => s1
    match attributeIsAReal tk e "userrotation" with
    | some xml_rotation_angle => setRotationAngle tk xml_rotation_angle s2
    | none => s2
  else s

/-- The method `ElementTextItem::toXml`. -/
def toXml (tk : Toolkit) (s : ElementTextItem) : QDomElement :=
  let r0 := QDomElement.createElement "input"
  let r1 := r0.setAttribute "x" (tk.arg s.original_position.x)
  let r2 := r1.setAttribute "y" (tk.arg s.original_position.y)
  let r3 :=
    if QPointF.ne tk (pos tk s) s.original_position then
      (r2.setAttribute "userx" (tk.arg (pos tk s).x)).setAttribute "usery" (tk.arg (pos tk s).y)
    else r2
  let r4 := r3.setAttribute "text" s.text
  if s.rotation_angle_ ≠ s.original_rotation_angle_ then
    r4.setAttribute "userrotation" (tk.arg s.rotation_angle_)
  else r4

/-- The method `ElementTextItem::setOriginalPos`. -/
def setOriginalPos (p : QPointF) (s : ElementTextItem) : ElementTextItem :=
  { s with original_position := p }

/-- The method `ElementTextItem::setOriginalRotationAngle`. -/
def setOriginalRotationAngle (rotation_angle : ℚ) (s : ElementTextItem) : ElementTextItem :=
  { s with original_rotation_angle_ := correctAngle rotation_angle }

/-! ## The drag protocol -/

/-- The part of a `QGraphicsSceneMouseEvent` that the handlers read. -/
structure QGraphicsSceneMouseEvent where
  /-- The value `e -> pos()`. -/
  pos : QPointF
  /-- The value `e -> buttonDownPos(Qt::LeftButton)`. -/
  buttonDownPos : QPointF
  /-- The test `e -> buttons() & Qt::LeftButton`. -/
  leftButton : Bool
  /-- The test `e -> modifiers() & Qt::ControlModifier`. -/
  controlModifier : Bool
deriving DecidableEq, Repr

/-- The parent `Element`, seen through the calls it receives. -/
structure Element where
  /-- The arguments of the calls of `setHighlighted`, oldest first. -/
  highlightCalls : List Bool
  /-- The number of calls of `update()`. -/
  updateCalls : Nat
deriving DecidableEq, Repr

/-- The arguments of one `MoveElementsTextsCommand`: the moved texts, by
identity, and the movement. -/
structure MoveElementsTextsCommand where
  texts : List Nat
  movement : QPointF
deriving DecidableEq, Repr

/-- The `Diagram` as the handlers see it: the public member
`current_movement`, the commands pushed on `undoStack()`, and the rest of the
diagram, of a type `α` left to the container. -/
structure Diagram (α : Type) where
  current_movement : QPointF
  undoStack : List MoveElementsTextsCommand
  rest : α

/-- Modelled from the spec: the bodies of the methods of `Diagram` that the
handlers call are not in this file. The container can "enumerate labels
currently being co-dragged", "apply that delta to all other co-dragged labels"
given "a scene-space delta and an excluded label" (and update the aggregate
movement), and "invalidate moved elements", a bookkeeping of the container
that touches neither the aggregate movement nor the undo stack. -/
structure DiagramOps (α : Type) where
  elementTextsToMove : Diagram α → List Nat
  moveElementsTexts : QPointF → Nat → Diagram α → Diagram α
  invalidateMovedElements : α → α

/-- The frame mappings `mapMovementToParent`, `mapMovementFromParent` and
`mapMovementToScene` inherited from `DiagramTextItem`. -/
structure FrameMaps where
  mapMovementToParent : ElementTextItem → QPointF → QPointF
  mapMovementFromParent : ElementTextItem → QPointF → QPointF
  mapMovementToScene : ElementTextItem → QPointF → QPointF

/-- The item together with the objects its handlers reach. -/
structure World (α : Type) where
  item : ElementTextItem
  /-- The identity of the item (the pointer `this`). -/
  self : Nat
  /-- The pointer `parent_element_`, `none` for a null pointer. -/
  parent_element_ : Option Element
  /-- The pointer `diagram()`, `none` for a null pointer. -/
  diagram : Option (Diagram α)
  /-- The number of move events passed to `DiagramTextItem::mouseMoveEvent`. -/
  forwardedMoves : Nat
  /-- The number of events refused with `e -> ignore()`. -/
  ignoredEvents : Nat
  /-- The number of events passed to `QGraphicsTextItem::mouseReleaseEvent`. -/
  forwardedReleases : Nat

/-- The method `ElementTextItem::mouseMoveEvent`. -/
def mouseMoveEvent {α : Type} (tk : Toolkit) (fm : FrameMaps) (ops : DiagramOps α)
    (e : QGraphicsSceneMouseEvent) (w : World α) : World α :=
  if w.item.textEditable then
    { w with forwardedMoves := w.forwardedMoves + 1 }
  else if w.item.movable && e.leftButton then
    let old_pos := pos tk w.item
    let movement := QPointF.sub tk e.pos e.buttonDownPos
    let parent_movement := fm.mapMovementToParent w.item movement
    let item1 := setPos tk (QPointF.add tk (pos tk w.item) parent_movement) w.item
    match w.diagram with
    | some diagram_ptr =>
      let moved_texts_count := (ops.elementTextsToMove diagram_ptr).length
      let highlight := moved_texts_count == 1 && w.parent_element_.isSome && item1.first_move_
      let parent1 :=
        if highlight then
          w.parent_element_.map fun p =>
            { p with highlightCalls := p.highlightCalls ++ [true]
                     updateCalls := p.updateCalls + 1 }
        else w.parent_element_
      let item2 := if highlight then { item1 with first_move_ := false } else item1
      let effective_movement := QPointF.sub tk (pos tk item2) old_pos
      let scene_effective_movement :=
        fm.mapMovementToScene item2 (fm.mapMovementFromParent item2 effective_movement)
      { w with item := item2
               parent_element_ := parent1
               diagram := some (ops.moveElementsTexts scene_effective_movement w.self diagram_ptr) }
    | none => { w with item := item1 }
  else { w with ignoredEvents := w.ignoredEvents + 1 }

/-- The method `ElementTextItem::mouseReleaseEvent`. -/
def mouseReleaseEvent {α : Type} (ops : DiagramOps α)
    (e : QGraphicsSceneMouseEvent) (w : World α) : World α :=
  let w1 : World α :=
    match w.diagram with
    | some diagram_ptr =>
      let moved_texts_count := (ops.elementTextsToMove diagram_ptr).length
      let item1 :=
        if moved_texts_count == 1 then { w.item with first_move_ := true } else w.item
      let parent1 :=
        if moved_texts_count == 1 then
          w.parent_element_.map fun p =>
            { p with highlightCalls := p.highlightCalls ++ [false] }
        else w.parent_element_
      let d1 :=
        if w.item.movable && !diagram_ptr.current_movement.isNull then
          { diagram_ptr with
              undoStack := diagram_ptr.undoStack ++
                [⟨ops.elementTextsToMove diagram_ptr, diagram_ptr.current_movement⟩]
              current_movement := QPointF.zero }
        else diagram_ptr
      let d2 := { d1 with rest := ops.invalidateMovedElements d1.rest }
      { w with item := item1, parent_element_ := parent1, diagram := some d2 }
    | none => w
  if !e.controlModifier then
    { w1 with forwardedReleases := w1.forwardedReleases + 1 }
  else w1

/-- The move events of a drag, handled in order. -/
def dragMoves {α : Type} (tk : Toolkit) (fm : FrameMaps) (ops : DiagramOps α)
    (moves : List QGraphicsSceneMouseEvent) (w : World α) : World α :=
  moves.foldl (fun v e => mouseMoveEvent tk fm ops e v) w

/-- A drag session: the move events in order, then the release event. -/
def dragSession {α : Type} (tk : Toolkit) (fm : FrameMaps) (ops : DiagramOps α)
    (moves : List QGraphicsSceneMouseEvent) (release : QGraphicsSceneMouseEvent)
    (w : World α) : World α :=
  mouseReleaseEvent ops release (dragMoves tk fm ops moves w)

/-- The calls of `setHighlighted` received so far by the parent element. -/
def highlightLog {α : Type} (w : World α) : List Bool :=
  match w.parent_element_ with
  | some p => p.highlightCalls
  | none => []

/-- The setting of a drag of `n` texts: a diagram that counts `n` texts to
move, a parent element, and an item that is movable and not being edited. -/
def dragSetting {α : Type} (ops : DiagramOps α) (n : Nat) (w : World α) : Prop :=
  (∃ d, w.diagram = some d ∧ (ops.elementTextsToMove d).length = n)
  ∧ w.parent_element_.isSome = true
  ∧ w.item.movable = true
  ∧ w.item.textEditable = false

/-! ## A reference toolkit

A concrete toolkit, used to run the model on concrete inputs: the rounding of
binary64, a decimal reader for `toDouble`, the `%g` style with six significant
digits for `arg`, sine and cosine, and a layout with lines of a fixed height. -/

/-- The nearest natural number to `n / d`, ties to even. -/
def roundHalfEven (n d : Nat) : Nat :=
  let q := n / d
  let r := n % d
  if d < 2 * r ∨ (2 * r = d ∧ q % 2 = 1) then q + 1 else q

/-- The binary exponent of `n / d`: the largest `e` with `2 ^ e ≤ n / d`. -/
def binaryExponent (n d : Nat) : Int :=
  let e0 : Int := ((Nat.toDigits 2 n).length : Int) - ((Nat.toDigits 2 d).length : Int)
  let reaches : Bool :=
    if 0 ≤ e0 then decide (d * 2 ^ e0.toNat ≤ n) else decide (d ≤ n * 2 ^ (-e0).toNat)
  if reaches then e0 else e0 - 1

/-- The rounding of binary64: the nearest number with a significand of 53
bits, ties to even. The range of the exponent is not bounded: overflow and
subnormal numbers are left out. -/
def roundDouble (q : ℚ) : ℚ :=
  if q = 0 then 0
  else
    let n := q.num.natAbs
    let d := q.den
    let e := binaryExponent n d
    let m :=
      if e ≤ 52 then roundHalfEven (n * 2 ^ (52 - e).toNat) d
      else roundHalfEven n (d * 2 ^ (e - 52).toNat)
    let v : ℚ := (m : ℚ) * (2 : ℚ) ^ (e - 52)
    if q < 0 then -v else v

/-- Reads a run of decimal digits: the number read so far, the count of digits
read, and the remaining characters. -/
def readDigits : List Char → Nat → Nat → Nat × Nat × List Char
  | [], acc, k => (acc, k, [])
  | c :: cs, acc, k =>
    if c.isDigit then readDigits cs (acc * 10 + (c.toNat - 48)) (k + 1)
    else (acc, k, c :: cs)

/-- Reads an optional sign: `true` for a minus sign. -/
def readSign : List Char → Bool × List Char
  | '-' :: cs => (true, cs)
  | '+' :: cs => (false, cs)
  | cs => (false, cs)

/-- Reads the optional exponent part `e±dd` at the end of a number. -/
def readExponent : List Char → Option Int
  | [] => some 0
  | c :: cs =>
    if c = 'e' ∨ c = 'E' then
      let (neg, r1) := readSign cs
      let (v, k, r2) := readDigits r1 0 0
      if k = 0 ∨ r2 ≠ [] then none
      else some (if neg then -(v : Int) else (v : Int))
    else none

/-- A decimal reader: sign, digits, optional fraction, optional exponent;
anything else does not convert. -/
def readDecimal (s : String) : Option ℚ :=
  let (neg, r0) := readSign s.data
  let (ip, ik, r1) := readDigits r0 0 0
  let (fp, fk, r2) :=
    match r1 with
    | '.' :: cs => readDigits cs 0 0
    | cs => (0, 0, cs)
  if ik + fk = 0 then none
  else
    match readExponent r2 with
    | none => none
    | some ex =>
      let m : ℚ := (ip : ℚ) + (fp : ℚ) / (10 : ℚ) ^ fk
      let v : ℚ := m * (10 : ℚ) ^ ex
      some (if neg then -v else v)

/-- The conversion `toDouble` of a decimal text: the binary64 number nearest to
the number read. -/
def decimalToDouble (s : String) : Option ℚ :=
  (readDecimal s).map roundDouble

/-- Removes the zeros at the end of a list of digits. -/
def stripZeros (ds : List Char) : List Char :=
  (ds.reverse.dropWhile (fun c => c == '0')).reverse

/-- The decimal exponent of `n / d`: the largest `e` with `10 ^ e ≤ n / d`. -/
def decimalExponent (n d : Nat) : Int :=
  let e0 : Int := ((Nat.repr n).length : Int) - ((Nat.repr d).length : Int)
  let reaches : Bool :=
    if 0 ≤ e0 then decide (d * 10 ^ e0.toNat ≤ n) else decide (d ≤ n * 10 ^ (-e0).toNat)
  if reaches then e0 else e0 - 1

/-- The six significant digits of `n / d` and its decimal exponent. -/
def sixDigits (n d : Nat) : Nat × Int :=
  let e := decimalExponent n d
  let m :=
    if e ≤ 5 then roundHalfEven (n * 10 ^ (5 - e).toNat) d
    else roundHalfEven n (d * 10 ^ (e - 5).toNat)
  if m = 1000000 then (100000, e + 1) else (m, e)

/-- The exponent part of the scientific style: sign and at least two digits. -/
def exponentText (e : Int) : List Char :=
  let a := e.natAbs
  ['e', if e < 0 then '-' else '+'] ++ (if a < 10 then ['0'] else []) ++ (Nat.repr a).data

/-- The style `%g` with six significant digits, the default of
`QString::arg(double)`: scientific when the exponent is below `-4` or at
least `6`, fixed otherwise, zeros at the end of the fraction removed. -/
def formatG6 (v : ℚ) : String :=
  if v = 0 then "0"
  else
    let (m, e) := sixDigits v.num.natAbs v.den
    let ds := (Nat.repr m).data
    let sign := if v < 0 then ['-'] else []
    let body :=
      if e < -4 ∨ 6 ≤ e then
        let frac := stripZeros (ds.drop 1)
        ds.take 1 ++ (if frac = [] then [] else '.' :: frac) ++ exponentText e
      else if 0 ≤ e then
        let frac := stripZeros (ds.drop (e.toNat + 1))
        ds.take (e.toNat + 1) ++ (if frac = [] then [] else '.' :: frac)
      else
        '0' :: '.' :: (List.replicate ((-e).toNat - 1) '0' ++ stripZeros ds)
    String.mk (sign ++ body)


/-- The approximation of Bhaskara of the sine of an angle in degrees. -/
def bhaskaraSin (a : ℚ) : ℚ :=
  let r := a - 360 * (Rat.floor (a / 360) : ℚ)
  if r ≤ 180 then 4 * r * (180 - r) / (40500 - r * (180 - r))
  else -(4 * (r - 180) * (360 - r) / (40500 - (r - 180) * (360 - r)))

/-- The sine of the reference toolkit: the binary64 values of the mathematical
library at 45 and 135 degrees (`0.7071067811865475`, `0.7071067811865476`),
the rounded approximation of Bhaskara elsewhere. -/
def referenceSin (a : ℚ) : ℚ :=
  if a = 45 then 1592262918131443 / 2251799813685248
  else if a = 135 then 6369051672525773 / 9007199254740992
  else roundDouble (bhaskaraSin a)

/-- The cosine of the reference toolkit: the binary64 values of the
mathematical library at 45 and 135 degrees (`0.7071067811865476`,
`-0.7071067811865475`), the rounded approximation of Bhaskara elsewhere. -/
def referenceCos (a : ℚ) : ℚ :=
  if a = 45 then 6369051672525773 / 9007199254740992
  else if a = 135 then -(1592262918131443 / 2251799813685248)
  else roundDouble (bhaskaraSin (a + 90))

/-- The number of lines of a plain text. -/
def lineCount (t : String) : Nat := t.data.count '\n' + 1

/-- The reference toolkit: binary64 arithmetic. -/
def referenceToolkit : Toolkit :=
  { fl := roundDouble
    toDouble := decimalToDouble
    arg := formatG6
    sinDeg := referenceSin
    cosDeg := referenceCos
    boundingBottomOf := fun t => 16 * (lineCount t : ℚ) + 8
    blockCountOf := lineCount }

/-- The binary64 number written `0.1`. -/
def oneTenth : ℚ := 3602879701896397 / 36028797018963968

/-- A label showing `T` on one line, at rest at the anchor `(10, 10)`, which is
also its reference position. -/
def exampleItem : ElementTextItem :=
  { rawPos := ⟨10, -2⟩
    transform := QTransform.identity
    boundingBottom := 24
    text := "T"
    rotation_angle_ := 0
    original_position := ⟨10, 10⟩
    original_rotation_angle_ := 0
    known_position_ := ⟨10, 10⟩
    first_move_ := true
    movable := true
    textEditable := false
    sendsGeometryChanges := true }

/-- The label of `exampleItem` after a drag to the anchor `(30, 20)` and a
quarter turn. -/
def movedItem : ElementTextItem :=
  { exampleItem with rawPos := ⟨30, 8⟩, rotation_angle_ := 90, text := "K1" }

/-- A record for the label at `(10, 10)`, without optional attributes. -/
def exampleRecord : QDomElement :=
  ⟨"input", [("x", "10"), ("y", "10"), ("text", "A")]⟩

/-- A record of another label, at `(99, 99)`, with all the optional attributes. -/
def otherRecord : QDomElement :=
  ⟨"input", [("x", "99"), ("y", "99"), ("userx", "1"), ("usery", "2"), ("text", "B"),
    ("userrotation", "90")]⟩

/-- A record for the label at `(10, 10)` whose `userx` is not a number. -/
def malformedPositionRecord : QDomElement :=
  ⟨"input", [("x", "10"), ("y", "10"), ("userx", "abc"), ("usery", "5"), ("text", "A"),
    ("userrotation", "450")]⟩

/-- A record for the label at `(10, 10)` whose `usery` is not a number. -/
def malformedOrdinateRecord : QDomElement :=
  ⟨"input", [("x", "10"), ("y", "10"), ("userx", "3"), ("usery", "5mm"), ("text", "B")]⟩

/-- A record for the label at `(10, 10)` whose `userrotation` is not a number. -/
def malformedRotationRecord : QDomElement :=
  ⟨"input", [("x", "10"), ("y", "10"), ("userx", "3"), ("usery", "5"), ("text", "A"),
    ("userrotation", "north")]⟩

/-- The label of `exampleItem` moved to the right by `2 ^ (-43)`, less than the
tolerance `0.000000000001` of the comparison of points. -/
def nearItem : ElementTextItem :=
  { exampleItem with rawPos := ⟨87960930222081 / 8796093022208, -2⟩, text := "N1" }

/-- Frame mappings of an unrotated item whose parent sits at the scene origin. -/
def plainFrameMaps : FrameMaps :=
  { mapMovementToParent := fun _ p => p
    mapMovementFromParent := fun _ p => p
    mapMovementToScene := fun _ p => p }

/-- A container whose remaining state is the list of the texts to move: moving
adds the movement to the aggregate movement, unless it is null. -/
def listDiagramOps : DiagramOps (List Nat) :=
  { elementTextsToMove := fun d => d.rest
    moveElementsTexts := fun mv _ d =>
      if mv.isNull then d else { d with current_movement := QPointF.add referenceToolkit d.current_movement mv }
    invalidateMovedElements := fun l => l }

/-- The label `exampleItem`, number 7, with a parent element and a diagram in
which the given texts are to be moved, the aggregate movement being `m`. -/
def exampleWorld (texts : List Nat) (m : QPointF) : World (List Nat) :=
  { item := exampleItem
    self := 7
    parent_element_ := some ⟨[], 0⟩
    diagram := some ⟨m, [], texts⟩
    forwardedMoves := 0
    ignoredEvents := 0
    forwardedReleases := 0 }

/-- A move event, left button held, 5 to the right of the press position. -/
def moveRight : QGraphicsSceneMouseEvent :=
  { pos := ⟨8, 3⟩, buttonDownPos := ⟨3, 3⟩, leftButton := true, controlModifier := false }

/-- The release event of the left button. -/
def releaseEvent : QGraphicsSceneMouseEvent :=
  { pos := ⟨8, 3⟩, buttonDownPos := ⟨3, 3⟩, leftButton := false, controlModifier := false }

/-! ## Geometry lemmas -/

@[simp] theorem itemChange_rawPos (tk : Toolkit) (c : GraphicsItemChange) (s : ElementTextItem) :
    (itemChange tk c s).rawPos = s.rawPos := by
  unfold itemChange; split <;> rfl

@[simp] theorem itemChange_boundingBottom (tk : Toolkit) (c : GraphicsItemChange) (s : ElementTextItem) :
    (itemChange tk c s).boundingBottom = s.boundingBottom := by
  unfold itemChange; split <;> rfl

@[simp] theorem itemChange_transform (tk : Toolkit) (c : GraphicsItemChange) (s : ElementTextItem) :
    (itemChange tk c s).transform = s.transform := by
  unfold itemChange; split <;> rfl

@[simp] theorem itemChange_rotation_angle_ (tk : Toolkit) (c : GraphicsItemChange) (s : ElementTextItem) :
    (itemChange tk c s).rotation_angle_ = s.rotation_angle_ := by
  unfold itemChange; split <;> rfl

@[simp] theorem itemChange_text (tk : Toolkit) (c : GraphicsItemChange) (s : ElementTextItem) :
    (itemChange tk c s).text = s.text := by
  unfold itemChange; split <;> rfl

@[simp] theorem itemChange_movable (tk : Toolkit) (c : GraphicsItemChange) (s : ElementTextItem) :
    (itemChange tk c s).movable = s.movable := by
  unfold itemChange; split <;> rfl

@[simp] theorem itemChange_textEditable (tk : Toolkit) (c : GraphicsItemChange) (s : ElementTextItem) :
    (itemChange tk c s).textEditable = s.textEditable := by
  unfold itemChange; split <;> rfl

@[simp] theorem itemChange_first_move_ (tk : Toolkit) (c : GraphicsItemChange) (s : ElementTextItem) :
    (itemChange tk c s).first_move_ = s.first_move_ := by
  unfold itemChange; split <;> rfl

@[simp] theorem setTransform_rawPos (tk : Toolkit) (m : QTransform) (b : Bool)
    (s : ElementTextItem) : (setTransform tk m b s).rawPos = s.rawPos := by
  simp [setTransform]

@[simp] theorem setTransform_boundingBottom (tk : Toolkit) (m : QTransform) (b : Bool)
    (s : ElementTextItem) : (setTransform tk m b s).boundingBottom = s.boundingBottom := by
  simp [setTransform]

@[simp] theorem setTransform_rotation_angle_ (tk : Toolkit) (m : QTransform) (b : Bool)
    (s : ElementTextItem) : (setTransform tk m b s).rotation_angle_ = s.rotation_angle_ := by
  simp [setTransform]

@[simp] theorem setTransform_text (tk : Toolkit) (m : QTransform) (b : Bool)
    (s : ElementTextItem) : (setTransform tk m b s).text = s.text := by
  simp [setTransform]

@[simp] theorem setTransform_movable (tk : Toolkit) (m : QTransform) (b : Bool)
    (s : ElementTextItem) : (setTransform tk m b s).movable = s.movable := by
  simp [setTransform]

@[simp] theorem setTransform_textEditable (tk : Toolkit) (m : QTransform) (b : Bool)
    (s : ElementTextItem) : (setTransform tk m b s).textEditable = s.textEditable := by
  simp [setTransform]

@[simp] theorem setTransform_first_move_ (tk : Toolkit) (m : QTransform) (b : Bool)
    (s : ElementTextItem) : (setTransform tk m b s).first_move_ = s.first_move_ := by
  simp [setTransform]

@[simp] theorem baseSetPos_boundingBottom (tk : Toolkit) (p : QPointF) (s : ElementTextItem) :
    (baseSetPos tk p s).boundingBottom = s.boundingBottom := by
  unfold baseSetPos
  split
  · rfl
  · split <;> simp

@[simp] theorem baseSetPos_transform (tk : Toolkit) (p : QPointF) (s : ElementTextItem) :
    (baseSetPos tk p s).transform = s.transform := by
  unfold baseSetPos
  split
  · rfl
  · split <;> simp

@[simp] theorem baseSetPos_rotation_angle_ (tk : Toolkit) (p : QPointF) (s : ElementTextItem) :
    (baseSetPos tk p s).rotation_angle_ = s.rotation_angle_ := by
  unfold baseSetPos
  split
  · rfl
  · split <;> simp

@[simp] theorem baseSetPos_text (tk : Toolkit) (p : QPointF) (s : ElementTextItem) :
    (baseSetPos tk p s).text = s.text := by
  unfold baseSetPos
  split
  · rfl
  · split <;> simp

@[simp] theorem baseSetPos_movable (tk : Toolkit) (p : QPointF) (s : ElementTextItem) :
    (baseSetPos tk p s).movable = s.movable := by
  unfold baseSetPos
  split
  · rfl
  · split <;> simp

@[simp] theorem baseSetPos_textEditable (tk : Toolkit) (p : QPointF) (s : ElementTextItem) :
    (baseSetPos tk p s).textEditable = s.textEditable := by
  unfold baseSetPos
  split
  · rfl
  · split <;> simp

@[simp] theorem baseSetPos_first_move_ (tk : Toolkit) (p : QPointF) (s : ElementTextItem) :
    (baseSetPos tk p s).first_move_ = s.first_move_ := by
  unfold baseSetPos
  split
  · rfl
  · split <;> simp

theorem setTransform_transform (tk : Toolkit) (m : QTransform) (b : Bool)
    (s : ElementTextItem) :
    (setTransform tk m b s).transform = if b then QTransform.mul tk m s.transform else m := by
  simp [setTransform]

theorem baseSetPos_rawPos (tk : Toolkit) (p : QPointF) (s : ElementTextItem) :
    (baseSetPos tk p s).rawPos = p := by
  unfold baseSetPos
  split
  · assumption
  · split <;> simp

@[simp] theorem originOffset_itemChange (tk : Toolkit) (c : GraphicsItemChange)
    (s : ElementTextItem) : originOffset tk (itemChange tk c s) = originOffset tk s := by
  simp [originOffset]

@[simp] theorem originOffset_setTransform (tk : Toolkit) (m : QTransform) (b : Bool)
    (s : ElementTextItem) : originOffset tk (setTransform tk m b s) = originOffset tk s := by
  simp [originOffset]

@[simp] theorem originOffset_baseSetPos (tk : Toolkit) (p : QPointF) (s : ElementTextItem) :
    originOffset tk (baseSetPos tk p s) = originOffset tk s := by
  simp [originOffset]

@[simp] theorem pos_itemChange (tk : Toolkit) (c : GraphicsItemChange) (s : ElementTextItem) :
    pos tk (itemChange tk c s) = pos tk s := by
  simp [pos]

@[simp] theorem pos_setTransform (tk : Toolkit) (m : QTransform) (b : Bool)
    (s : ElementTextItem) : pos tk (setTransform tk m b s) = pos tk s := by
  simp [pos]

@[simp] theorem pos_applyRotation (tk : Toolkit) (a : ℚ) (s : ElementTextItem) :
    pos tk (applyRotation tk a s) = pos tk s := by
  simp [applyRotation]

@[simp] theorem applyRotation_boundingBottom (tk : Toolkit) (a : ℚ) (s : ElementTextItem) :
    (applyRotation tk a s).boundingBottom = s.boundingBottom := by
  simp [applyRotation]

@[simp] theorem setPos_boundingBottom (tk : Toolkit) (p : QPointF) (s : ElementTextItem) :
    (setPos tk p s).boundingBottom = s.boundingBottom := by
  simp [setPos, resetTransform]

@[simp] theorem applyRotation_rotation_angle_ (tk : Toolkit) (a : ℚ) (s : ElementTextItem) :
    (applyRotation tk a s).rotation_angle_ = s.rotation_angle_ := by
  simp [applyRotation]

@[simp] theorem setPos_rotation_angle_ (tk : Toolkit) (p : QPointF) (s : ElementTextItem) :
    (setPos tk p s).rotation_angle_ = s.rotation_angle_ := by
  simp [setPos, resetTransform]

@[simp] theorem applyRotation_text (tk : Toolkit) (a : ℚ) (s : ElementTextItem) :
    (applyRotation tk a s).text = s.text := by
  simp [applyRotation]

@[simp] theorem setPos_text (tk : Toolkit) (p : QPointF) (s : ElementTextItem) :
    (setPos tk p s).text = s.text := by
  simp [setPos, resetTransform]

@[simp] theorem applyRotation_movable (tk : Toolkit) (a : ℚ) (s : ElementTextItem) :
    (applyRotation tk a s).movable = s.movable := by
  simp [applyRotation]

@[simp] theorem setPos_movable (tk : Toolkit) (p : QPointF) (s : ElementTextItem) :
    (setPos tk p s).movable = s.movable := by
  simp [setPos, resetTransform]

@[simp] theorem applyRotation_textEditable (tk : Toolkit) (a : ℚ) (s : ElementTextItem) :
    (applyRotation tk a s).textEditable = s.textEditable := by
  simp [applyRotation]

@[simp] theorem setPos_textEditable (tk : Toolkit) (p : QPointF) (s : ElementTextItem) :
    (setPos tk p s).textEditable = s.textEditable := by
  simp [setPos, resetTransform]

@[simp] theorem applyRotation_first_move_ (tk : Toolkit) (a : ℚ) (s : ElementTextItem) :
    (applyRotation tk a s).first_move_ = s.first_move_ := by
  simp [applyRotation]

@[simp] theorem setPos_first_move_ (tk : Toolkit) (p : QPointF) (s : ElementTextItem) :
    (setPos tk p s).first_move_ = s.first_move_ := by
  simp [setPos, resetTransform]

/-- The value of `pos()` after `setPos(p)`: the arithmetic of `placedAt`. -/
theorem pos_setPos (tk : Toolkit) (p : QPointF) (s : ElementTextItem) :
    pos tk (setPos tk p s) = placedAt tk s.boundingBottom p := by
  simp only [setPos, pos_applyRotation]
  simp only [pos, baseSetPos_rawPos, originOffset_baseSetPos, resetTransform,
    originOffset_setTransform]
  rfl

/-- When `p` is made of `qreal` values and the subtraction of half of the bottom
from its ordinate is exact, `placedAt` gives `p` back. -/
theorem placedAt_exact (tk : Toolkit) (b : ℚ) (p : QPointF)
    (hx : tk.fl p.x = p.x) (hy : tk.fl p.y = p.y)
    (hsub : tk.fl (p.y - tk.div b 2) = p.y - tk.div b 2) :
    placedAt tk b p = p := by
  cases p with
  | mk x y =>
    simp only at hx hy hsub
    simp only [placedAt, Toolkit.add, Toolkit.sub, sub_zero, add_zero, hx, hsub,
      sub_add_cancel, hy]

theorem mul_identity (tk : Toolkit) (a : QTransform) :
    QTransform.mul tk a QTransform.identity = a := by
  simp [QTransform.mul]

theorem lookup_filter_ne (l : List (String × String)) (n m : String) (h : m ≠ n) :
    (l.filter (fun a => a.1 != n)).lookup m = l.lookup m := by
  induction l with
  | nil => rfl
  | cons a l ih =>
    obtain ⟨k, v⟩ := a
    by_cases hk : k = n
    · subst hk
      have hmk : (m == k) = false := by simpa using h
      simp [List.filter, List.lookup, hmk, ih]
    · have hkn : (k != n) = true := by simpa using hk
      simp only [List.filter, hkn, List.lookup]
      cases hmk : (m == k) <;> simp [ih]

theorem lookup_filter_self (l : List (String × String)) (n : String) :
    (l.filter (fun a => a.1 != n)).lookup n = none := by
  induction l with
  | nil => rfl
  | cons a l ih =>
    obtain ⟨k, v⟩ := a
    by_cases hk : k = n
    · subst hk
      simp [List.filter, ih]
    · have hkn : (k != n) = true := by simpa using hk
      have hnk : (n == k) = false := by simpa using fun h : n = k => hk h.symm
      simp [List.filter, hkn, List.lookup, hnk, ih]

theorem attributeOf_removeAttribute (e : QDomElement) (n m : String) (h : m ≠ n) :
    (e.removeAttribute n).attributeOf m = e.attributeOf m := by
  simp [QDomElement.removeAttribute, QDomElement.attributeOf, lookup_filter_ne _ _ _ h]

theorem hasAttribute_removeAttribute (e : QDomElement) (n m : String) (h : m ≠ n) :
    (e.removeAttribute n).hasAttribute m = e.hasAttribute m := by
  simp [QDomElement.removeAttribute, QDomElement.hasAttribute, lookup_filter_ne _ _ _ h]

theorem hasAttribute_removeAttribute_self (e : QDomElement) (n : String) :
    (e.removeAttribute n).hasAttribute n = false := by
  simp [QDomElement.removeAttribute, QDomElement.hasAttribute, lookup_filter_self]

theorem attributeIsAReal_removeAttribute (tk : Toolkit) (e : QDomElement) (n m : String)
    (h : m ≠ n) :
    attributeIsAReal tk (e.removeAttribute n) m = attributeIsAReal tk e m := by
  simp [attributeIsAReal, attributeOf_removeAttribute _ _ _ h,
    hasAttribute_removeAttribute _ _ _ h]

theorem attributeIsAReal_removeAttribute_self (tk : Toolkit) (e : QDomElement) (n : String) :
    attributeIsAReal tk (e.removeAttribute n) n = none := by
  simp [attributeIsAReal, hasAttribute_removeAttribute_self]

theorem attributeIsAReal_eq_none (tk : Toolkit) (e : QDomElement) (name : String)
    (h : notAReal tk e name) : attributeIsAReal tk e name = none := by
  unfold attributeIsAReal
  rcases h with h | h
  · simp [h]
  · simp [h]

theorem positionMatches_removeAttribute (tk : Toolkit) (e : QDomElement) (n : String)
    (s : ElementTextItem) (hx : "x" ≠ n) (hy : "y" ≠ n) :
    positionMatches tk (e.removeAttribute n) s = positionMatches tk e s := by
  simp [positionMatches, attributeToDouble, attributeOf_removeAttribute _ _ _ hx,
    attributeOf_removeAttribute _ _ _ hy]

@[simp] theorem setRotationAngle_text (tk : Toolkit) (a : ℚ) (s : ElementTextItem) :
    (setRotationAngle tk a s).text = s.text := by
  simp [setRotationAngle]

@[simp] theorem setRotationAngle_rotation (tk : Toolkit) (a : ℚ) (s : ElementTextItem) :
    (setRotationAngle tk a s).rotation_angle_ = correctAngle a := by
  simp [setRotationAngle]

@[simp] theorem pos_setRotationAngle (tk : Toolkit) (a : ℚ) (s : ElementTextItem) :
    pos tk (setRotationAngle tk a s) = pos tk s := by
  have h := pos_applyRotation tk (tk.sub (correctAngle a) s.rotation_angle_) s
  simpa [setRotationAngle, pos, originOffset] using h

@[simp] theorem setPlainText_text (tk : Toolkit) (t : String) (s : ElementTextItem) :
    (setPlainText tk t s).text = t := by
  unfold setPlainText
  split <;> simp [adjustItemPosition]

@[simp] theorem setPlainText_rotation (tk : Toolkit) (t : String) (s : ElementTextItem) :
    (setPlainText tk t s).rotation_angle_ = s.rotation_angle_ := by
  unfold setPlainText
  split <;> simp [adjustItemPosition]

@[simp] theorem setPlainText_boundingBottom (tk : Toolkit) (t : String) (s : ElementTextItem) :
    (setPlainText tk t s).boundingBottom = tk.boundingBottomOf t := by
  unfold setPlainText
  split <;> simp [adjustItemPosition]

theorem fromXml_of_match (tk : Toolkit) (e : QDomElement) (s : ElementTextItem)
    (h : positionMatches tk e s = true) :
    fromXml tk e s =
      (match attributeIsAReal tk e "userrotation" with
        | some a => setRotationAngle tk a
        | none => id)
      ((match attributeIsAReal tk e "userx", attributeIsAReal tk e "usery" with
        | some ux, some uy => setPosXY tk ux uy
        | _, _ => id)
      (setPlainText tk (e.attributeOf "text") s)) := by
  simp only [fromXml, h, if_true]
  cases attributeIsAReal tk e "userrotation" <;>
    cases attributeIsAReal tk e "userx" <;>
    cases attributeIsAReal tk e "usery" <;> rfl

theorem fromXml_of_mismatch (tk : Toolkit) (e : QDomElement) (s : ElementTextItem)
    (h : positionMatches tk e s = false) : fromXml tk e s = s := by
  simp [fromXml, h]

theorem fromXml_text (tk : Toolkit) (e : QDomElement) (s : ElementTextItem)
    (h : positionMatches tk e s = true) :
    (fromXml tk e s).text = e.attributeOf "text" := by
  rw [fromXml_of_match tk e s h]
  cases attributeIsAReal tk e "userrotation" <;>
    cases attributeIsAReal tk e "userx" <;>
    cases attributeIsAReal tk e "usery" <;> simp [setPosXY]

theorem toXml_tagName (tk : Toolkit) (s : ElementTextItem) : (toXml tk s).tagName = "input" := by
  unfold toXml
  split <;> split <;> simp [QDomElement.setAttribute, QDomElement.createElement]

theorem toXml_x (tk : Toolkit) (s : ElementTextItem) :
    (toXml tk s).hasAttribute "x" = true
    ∧ (toXml tk s).attributeOf "x" = tk.arg s.original_position.x := by
  unfold toXml
  split <;> split <;>
    simp [QDomElement.setAttribute, QDomElement.attributeOf, QDomElement.hasAttribute,
      QDomElement.createElement, List.lookup, List.filter]

theorem toXml_y (tk : Toolkit) (s : ElementTextItem) :
    (toXml tk s).hasAttribute "y" = true
    ∧ (toXml tk s).attributeOf "y" = tk.arg s.original_position.y := by
  unfold toXml
  split <;> split <;>
    simp [QDomElement.setAttribute, QDomElement.attributeOf, QDomElement.hasAttribute,
      QDomElement.createElement, List.lookup, List.filter]

theorem toXml_text (tk : Toolkit) (s : ElementTextItem) :
    (toXml tk s).hasAttribute "text" = true
    ∧ (toXml tk s).attributeOf "text" = s.text := by
  unfold toXml
  split <;> split <;>
    simp [QDomElement.setAttribute, QDomElement.attributeOf, QDomElement.hasAttribute,
      QDomElement.createElement, List.lookup, List.filter]

theorem toXml_userx (tk : Toolkit) (s : ElementTextItem) :
    (toXml tk s).hasAttribute "userx" = QPointF.ne tk (pos tk s) s.original_position
    ∧ (QPointF.ne tk (pos tk s) s.original_position = true →
        (toXml tk s).attributeOf "userx" = tk.arg (pos tk s).x) := by
  unfold toXml
  split <;> split <;>
    simp_all [QDomElement.setAttribute, QDomElement.attributeOf, QDomElement.hasAttribute,
      QDomElement.createElement, List.lookup, List.filter]

theorem toXml_usery (tk : Toolkit) (s : ElementTextItem) :
    (toXml tk s).hasAttribute "usery" = QPointF.ne tk (pos tk s) s.original_position
    ∧ (QPointF.ne tk (pos tk s) s.original_position = true →
        (toXml tk s).attributeOf "usery" = tk.arg (pos tk s).y) := by
  unfold toXml
  split <;> split <;>
    simp_all [QDomElement.setAttribute, QDomElement.attributeOf, QDomElement.hasAttribute,
      QDomElement.createElement, List.lookup, List.filter]

theorem toXml_userrotation (tk : Toolkit) (s : ElementTextItem) :
    (toXml tk s).hasAttribute "userrotation"
      = decide (s.rotation_angle_ ≠ s.original_rotation_angle_)
    ∧ (s.rotation_angle_ ≠ s.original_rotation_angle_ →
        (toXml tk s).attributeOf "userrotation" = tk.arg s.rotation_angle_) := by
  unfold toXml
  split <;> split <;>
    simp_all [QDomElement.setAttribute, QDomElement.attributeOf, QDomElement.hasAttribute,
      QDomElement.createElement, List.lookup, List.filter]

theorem correctAngle_range (a : ℚ) : 0 ≤ correctAngle a ∧ correctAngle a < 360 := by
  have hfl : ((Rat.floor (a / 360) : ℤ) : ℚ) = ((⌊a / 360⌋ : ℤ) : ℚ) := rfl
  have h1 : ((⌊a / 360⌋ : ℤ) : ℚ) ≤ a / 360 := Int.floor_le _
  have h2 : a / 360 < ((⌊a / 360⌋ : ℤ) : ℚ) + 1 := Int.lt_floor_add_one _
  unfold correctAngle
  rw [hfl]
  constructor
  · have : 360 * ((⌊a / 360⌋ : ℤ) : ℚ) ≤ a := by
      have := mul_le_mul_of_nonneg_left h1 (by norm_num : (0 : ℚ) ≤ 360)
      linarith [mul_div_cancel₀ a (by norm_num : (360 : ℚ) ≠ 0)]
    linarith
  · have : a < 360 * (((⌊a / 360⌋ : ℤ) : ℚ) + 1) := by
      have := mul_lt_mul_of_pos_left h2 (by norm_num : (0 : ℚ) < 360)
      linarith [mul_div_cancel₀ a (by norm_num : (360 : ℚ) ≠ 0)]
    linarith

theorem correctAngle_of_normalised (a : ℚ) (h0 : 0 ≤ a) (h1 : a < 360) :
    correctAngle a = a := by
  have hfl : Rat.floor (a / 360) = ⌊a / 360⌋ := rfl
  have hz : ⌊a / 360⌋ = 0 := by
    rw [Int.floor_eq_zero_iff]
    constructor
    · positivity
    · rw [div_lt_one (by norm_num)]
      exact h1
  unfold correctAngle
  rw [hfl, hz]
  simp

theorem ne_iff (tk : Toolkit) (p q : QPointF) :
    QPointF.ne tk p q = true
      ↔ (tk.epsilon < |tk.sub p.x q.x| ∨ tk.epsilon < |tk.sub p.y q.y|) := by
  simp [QPointF.ne, qFuzzyIsNull]

/-! ## Lemmas on the drag handlers -/

theorem isNull_iff (p : QPointF) : p.isNull = true ↔ p = QPointF.zero := by
  cases p
  simp [QPointF.isNull, QPointF.zero]

/-- The move event, seen through the fields of its result, for an item that is
movable and not edited, the left button held and a diagram present. -/
theorem mouseMoveEvent_eq {α : Type} (tk : Toolkit) (fm : FrameMaps) (ops : DiagramOps α)
    (e : QGraphicsSceneMouseEvent) (w : World α) (d : Diagram α)
    (hd : w.diagram = some d) (hmov : w.item.movable = true)
    (hedit : w.item.textEditable = false) (hl : e.leftButton = true) :
    ((mouseMoveEvent tk fm ops e w).item.movable = true
      ∧ (mouseMoveEvent tk fm ops e w).item.textEditable = false)
    ∧ (mouseMoveEvent tk fm ops e w).item.first_move_
      = (if ((ops.elementTextsToMove d).length == 1 && w.parent_element_.isSome
            && w.item.first_move_) = true then false else w.item.first_move_)
    ∧ (mouseMoveEvent tk fm ops e w).parent_element_
      = (if ((ops.elementTextsToMove d).length == 1 && w.parent_element_.isSome
            && w.item.first_move_) = true
          then w.parent_element_.map fun p =>
            { p with highlightCalls := p.highlightCalls ++ [true]
                     updateCalls := p.updateCalls + 1 }
          else w.parent_element_)
    ∧ ∃ mv, (mouseMoveEvent tk fm ops e w).diagram = some (ops.moveElementsTexts mv w.self d) := by
  obtain ⟨w_item, w_self, w_parent, w_diagram, fmv, ign, frl⟩ := w
  simp only at hd hmov hedit
  subst hd
  unfold mouseMoveEvent
  simp only [hedit, hmov, hl, Bool.and_self, if_true, Bool.false_eq_true, if_false,
    setPos_first_move_]
  refine ⟨⟨?_, ?_⟩, ?_, ?_, ⟨_, rfl⟩⟩
  · split <;> simp [hmov]
  · split <;> simp [hedit]
  · split <;> simp
  · trivial


/-- One move event in a drag setting: the setting is kept; the parent is
highlighted, and the item disarmed, exactly when one text is moved and the item
is armed. -/
theorem mouseMoveEvent_step {α : Type} (tk : Toolkit) (fm : FrameMaps) (ops : DiagramOps α)
    (n : Nat) (e : QGraphicsSceneMouseEvent) (w : World α)
    (hcount : ∀ mv me d, (ops.elementTextsToMove (ops.moveElementsTexts mv me d)).length
      = (ops.elementTextsToMove d).length)
    (hw : dragSetting ops n w) (hl : e.leftButton = true) :
    dragSetting ops n (mouseMoveEvent tk fm ops e w)
    ∧ ((n = 1 ∧ w.item.first_move_ = true) →
        highlightLog (mouseMoveEvent tk fm ops e w) = highlightLog w ++ [true]
        ∧ (mouseMoveEvent tk fm ops e w).item.first_move_ = false)
    ∧ (¬ (n = 1 ∧ w.item.first_move_ = true) →
        highlightLog (mouseMoveEvent tk fm ops e w) = highlightLog w
        ∧ (mouseMoveEvent tk fm ops e w).item.first_move_ = w.item.first_move_) := by
  obtain ⟨⟨d, hd, hn⟩, hp, hmov, hedit⟩ := hw
  obtain ⟨⟨hitm, hite⟩, hfm, hpar, mv, hdia⟩ :=
    mouseMoveEvent_eq tk fm ops e w d hd hmov hedit hl
  obtain ⟨p, hpp⟩ := Option.isSome_iff_exists.mp hp
  have hcnt : (ops.elementTextsToMove (ops.moveElementsTexts mv w.self d)).length = n := by
    rw [hcount, hn]
  by_cases hq : n = 1 ∧ w.item.first_move_ = true
  · have hc : ((ops.elementTextsToMove d).length == 1 && w.parent_element_.isSome
        && w.item.first_move_) = true := by
      simp [hn, hq.1, hq.2, hp]
    rw [if_pos hc] at hfm hpar
    refine ⟨⟨⟨_, hdia, hcnt⟩, ?_, hitm, hite⟩, fun _ => ⟨?_, hfm⟩, fun h => absurd hq h⟩
    · simp [hpar, hpp]
    · simp [highlightLog, hpar, hpp]
  · have hc : ¬ (((ops.elementTextsToMove d).length == 1 && w.parent_element_.isSome
        && w.item.first_move_) = true) := by
      intro h
      simp only [Bool.and_eq_true, beq_iff_eq] at h
      exact hq ⟨hn ▸ h.1.1, h.2⟩
    rw [if_neg hc] at hfm hpar
    refine ⟨⟨⟨_, hdia, hcnt⟩, by rw [hpar]; exact hp, hitm, hite⟩, fun h => absurd h hq,
      fun _ => ⟨?_, hfm⟩⟩
    simp [highlightLog, hpar]

/-- Move events on an item that cannot highlight any more (several texts, or
item disarmed) leave the highlight calls and `first_move_` as they are. -/
theorem dragMoves_quiet {α : Type} (tk : Toolkit) (fm : FrameMaps) (ops : DiagramOps α)
    (n : Nat) (hcount : ∀ mv me d,
      (ops.elementTextsToMove (ops.moveElementsTexts mv me d)).length
      = (ops.elementTextsToMove d).length)
    (es : List QGraphicsSceneMouseEvent) :
    ∀ w : World α, dragSetting ops n w → (∀ ev ∈ es, ev.leftButton = true) →
      ¬ (n = 1 ∧ w.item.first_move_ = true) →
      dragSetting ops n (dragMoves tk fm ops es w)
      ∧ highlightLog (dragMoves tk fm ops es w) = highlightLog w
      ∧ (dragMoves tk fm ops es w).item.first_move_ = w.item.first_move_ := by
  induction es with
  | nil => intro w hw _ _; exact ⟨hw, rfl, rfl⟩
  | cons e es ih =>
    intro w hw hl hq
    have hstep := mouseMoveEvent_step tk fm ops n e w hcount hw (hl e (by simp))
    obtain ⟨hs, -, hquiet⟩ := hstep
    obtain ⟨hlog, hfm⟩ := hquiet hq
    have hq2 : ¬ (n = 1 ∧ (mouseMoveEvent tk fm ops e w).item.first_move_ = true) := by
      rw [hfm]; exact hq
    obtain ⟨h1, h2, h3⟩ := ih (mouseMoveEvent tk fm ops e w) hs
      (fun ev hev => hl ev (by simp [hev])) hq2
    refine ⟨h1, ?_, ?_⟩
    · show highlightLog (dragMoves tk fm ops es (mouseMoveEvent tk fm ops e w)) = _
      rw [h2, hlog]
    · show (dragMoves tk fm ops es (mouseMoveEvent tk fm ops e w)).item.first_move_ = _
      rw [h3, hfm]

/-- The release event, unfolded for a diagram present. -/
theorem mouseReleaseEvent_eq {α : Type} (ops : DiagramOps α)
    (e : QGraphicsSceneMouseEvent) (w : World α) (d : Diagram α) (hd : w.diagram = some d) :
    (mouseReleaseEvent ops e w).item
      = (if ((ops.elementTextsToMove d).length == 1) = true
          then { w.item with first_move_ := true } else w.item)
    ∧ (mouseReleaseEvent ops e w).parent_element_
      = (if ((ops.elementTextsToMove d).length == 1) = true
          then w.parent_element_.map fun p =>
            { p with highlightCalls := p.highlightCalls ++ [false] }
          else w.parent_element_)
    ∧ (mouseReleaseEvent ops e w).diagram
      = some
        { (if (w.item.movable && !d.current_movement.isNull) = true then
            { d with
                undoStack := d.undoStack ++ [⟨ops.elementTextsToMove d, d.current_movement⟩]
                current_movement := QPointF.zero }
          else d) with
          rest := ops.invalidateMovedElements
            (if (w.item.movable && !d.current_movement.isNull) = true then
              { d with
                  undoStack := d.undoStack ++ [⟨ops.elementTextsToMove d, d.current_movement⟩]
                  current_movement := QPointF.zero }
            else d).rest } := by
  obtain ⟨w_item, w_self, w_parent, w_diagram, fmv, ign, frl⟩ := w
  simp only at hd
  subst hd
  unfold mouseReleaseEvent
  cases e.controlModifier <;> exact ⟨rfl, rfl, rfl⟩

/-- The release event in a drag setting: with one text the parent receives
`setHighlighted(false)` and the item is armed again; otherwise nothing of it. -/
theorem mouseReleaseEvent_highlight {α : Type} (ops : DiagramOps α) (n : Nat)
    (e : QGraphicsSceneMouseEvent) (w : World α) (hw : dragSetting ops n w) :
    (n = 1 →
      highlightLog (mouseReleaseEvent ops e w) = highlightLog w ++ [false]
      ∧ (mouseReleaseEvent ops e w).item.first_move_ = true)
    ∧ (n ≠ 1 →
      highlightLog (mouseReleaseEvent ops e w) = highlightLog w
      ∧ (mouseReleaseEvent ops e w).item.first_move_ = w.item.first_move_) := by
  obtain ⟨⟨d, hd, hn⟩, hp, -, -⟩ := hw
  obtain ⟨p, hpp⟩ := Option.isSome_iff_exists.mp hp
  obtain ⟨hi, hpar, -⟩ := mouseReleaseEvent_eq ops e w d hd
  constructor
  · intro hone
    have hc : ((ops.elementTextsToMove d).length == 1) = true := by simp [hn, hone]
    rw [if_pos hc] at hi hpar
    refine ⟨?_, by rw [hi]⟩
    simp [highlightLog, hpar, hpp]
  · intro hone
    have hc : ¬ (((ops.elementTextsToMove d).length == 1) = true) := by simp [hn, hone]
    rw [if_neg hc] at hi hpar
    refine ⟨?_, by rw [hi]⟩
    simp [highlightLog, hpar]

theorem listDiagramOps_count (mv : QPointF) (me : Nat) (d : Diagram (List Nat)) :
    (listDiagramOps.elementTextsToMove (listDiagramOps.moveElementsTexts mv me d)).length
      = (listDiagramOps.elementTextsToMove d).length := by
  simp only [listDiagramOps]
  split <;> rfl

theorem exampleWorld_dragSetting (texts : List Nat) (m : QPointF) :
    dragSetting listDiagramOps texts.length (exampleWorld texts m) :=
  ⟨⟨_, rfl, rfl⟩, rfl, rfl, rfl⟩

/-! ## The claims -/

/-- C1, as the code has it. In binary64 `pos()` after `setPos(P)` is not always
`P`: with the bottom 24, `P = (0, 0.1)` comes back as
`(0, 0.09999999999999964)`, and the ordinate `-1048570.1` comes back with an
error that even the fuzzy comparison of points does not accept. -/
theorem anchor_round_trip_rounds :
    referenceToolkit.fl oneTenth = oneTenth
    ∧ pos referenceToolkit (setPos referenceToolkit ⟨0, oneTenth⟩ exampleItem)
        = ⟨0, 56294995342131 / 562949953421312⟩
    ∧ pos referenceToolkit (setPos referenceToolkit ⟨0, oneTenth⟩ exampleItem)
        ≠ ⟨0, oneTenth⟩
    ∧ QPointF.ne referenceToolkit
        (pos referenceToolkit
          (setPos referenceToolkit ⟨0, -(9007148574126899 / 8589934592)⟩ exampleItem))
        ⟨0, -(9007148574126899 / 8589934592)⟩ = true := by
  decide!

/-- C1, amended. Anchor round trip up to rounding: whatever the rotation angle
and the transform of the item, `pos()` after `setPos(P)` has the abscissa of
`P` and the ordinate `(P.y - h) + h`, `h` half of the bottom, each operation
rounded; the bounding rectangle is the same in both calls; and `pos()` is `P`
whenever `P` is made of `qreal` values and `P.y - h` is computed exactly. -/
theorem anchor_round_trip (tk : Toolkit) (P : QPointF) (s : ElementTextItem) :
    pos tk (setPos tk P s) = placedAt tk s.boundingBottom P
    ∧ (setPos tk P s).boundingBottom = s.boundingBottom
    ∧ (tk.fl P.x = P.x → tk.fl P.y = P.y →
        tk.fl (P.y - tk.div s.boundingBottom 2) = P.y - tk.div s.boundingBottom 2 →
        pos tk (setPos tk P s) = P) := by
  have hplaced : pos tk (setPos tk P s) = placedAt tk s.boundingBottom P := by
    simp only [setPos, applyRotation, pos, originOffset, resetTransform, setTransform_rawPos,
      setTransform_boundingBottom, baseSetPos_rawPos, baseSetPos_boundingBottom]
    rfl
  refine ⟨hplaced, setPos_boundingBottom tk P s, fun hx hy hsub => ?_⟩
  rw [hplaced]
  cases P with
  | mk x y =>
    simp only at hx hy hsub
    simp only [placedAt, Toolkit.add, Toolkit.sub, sub_zero, add_zero, hx, hsub,
      sub_add_cancel, hy]

/-- Witness of C1, amended: in binary64, with the bottom 24, `setPos((30, 20))`
on the label at `(10, 10)` gives `pos() = (30, 20)`. -/
theorem anchor_round_trip_witness :
    (setPos referenceToolkit ⟨30, 20⟩ exampleItem).rawPos = ⟨30, 8⟩
    ∧ (pos referenceToolkit (setPos referenceToolkit ⟨30, 20⟩ exampleItem)).y = 20
    ∧ pos referenceToolkit (setPos referenceToolkit ⟨30, 20⟩ exampleItem) = ⟨30, 20⟩ :=
  ⟨by decide!, by decide!,
    (anchor_round_trip referenceToolkit ⟨30, 20⟩ exampleItem).2.2
      (by decide!) (by decide!) (by decide!)⟩

/-- C2, as the code has it. In binary64, after `setPos((10, 0.1))` with the
bottom 24 the position recorded by `itemChange` has the ordinate
`0.09999999999999964`; with the bottom changed to 40, `adjustItemPosition`
gives the ordinate `0.10000000000000142`: neither is `0.1`. -/
theorem reflow_stability_rounds :
    (itemChange referenceToolkit GraphicsItemChange.ItemPositionHasChanged
        (setPos referenceToolkit ⟨10, oneTenth⟩ exampleItem)).known_position_
      = ⟨10, 56294995342131 / 562949953421312⟩
    ∧ pos referenceToolkit (adjustItemPosition referenceToolkit 2
        (withBoundingBottom 40
          (itemChange referenceToolkit GraphicsItemChange.ItemPositionHasChanged
            (setPos referenceToolkit ⟨10, oneTenth⟩ exampleItem))))
      = ⟨10, 14073748835533 / 140737488355328⟩
    ∧ pos referenceToolkit (adjustItemPosition referenceToolkit 2
        (withBoundingBottom 40
          (itemChange referenceToolkit GraphicsItemChange.ItemPositionHasChanged
            (setPos referenceToolkit ⟨10, oneTenth⟩ exampleItem))))
      ≠ ⟨10, oneTenth⟩ := by
  decide!

/-- C2, amended. Reflow stability up to rounding: `itemChange` after `setPos(P)`
records `pos()`, which is `placedAt` of `P` for the bottom of that time; after
any change of the bottom, `adjustItemPosition` gives `placedAt` of the recorded
position for the new bottom; and `pos()` is `P` again whenever `P` is made of
`qreal` values and half of the old and of the new bottom are subtracted from
`P.y` exactly. -/
theorem reflow_stability (tk : Toolkit) (P : QPointF) (s0 s : ElementTextItem) (b : ℚ)
    (new_block_count : Nat) :
    (itemChange tk GraphicsItemChange.ItemPositionHasChanged (setPos tk P s0)).known_position_
      = placedAt tk s0.boundingBottom P
    ∧ pos tk (adjustItemPosition tk new_block_count (withBoundingBottom b s))
      = placedAt tk b s.known_position_
    ∧ (tk.fl P.x = P.x → tk.fl P.y = P.y →
        tk.fl (P.y - tk.div s0.boundingBottom 2) = P.y - tk.div s0.boundingBottom 2 →
        tk.fl (P.y - tk.div b 2) = P.y - tk.div b 2 →
        (itemChange tk GraphicsItemChange.ItemPositionHasChanged
          (setPos tk P s0)).known_position_ = P
        ∧ pos tk (adjustItemPosition tk new_block_count
            (withBoundingBottom b
              (itemChange tk GraphicsItemChange.ItemPositionHasChanged (setPos tk P s0))))
          = P) := by
  have hplaced : ∀ (p : QPointF) (t : ElementTextItem),
      pos tk (setPos tk p t) = placedAt tk t.boundingBottom p := by
    intro p t
    simp only [setPos, applyRotation, pos, originOffset, resetTransform, setTransform_rawPos,
      setTransform_boundingBottom, baseSetPos_rawPos, baseSetPos_boundingBottom]
    rfl
  have hk : (itemChange tk GraphicsItemChange.ItemPositionHasChanged
      (setPos tk P s0)).known_position_ = placedAt tk s0.boundingBottom P := by
    simp [itemChange, hplaced]
  have hadj : ∀ t : ElementTextItem,
      pos tk (adjustItemPosition tk new_block_count (withBoundingBottom b t))
        = placedAt tk b t.known_position_ := by
    intro t
    unfold adjustItemPosition
    rw [hplaced]
    rfl
  refine ⟨hk, hadj s, fun hx hy h0 hb => ?_⟩
  have hP : placedAt tk s0.boundingBottom P = P := placedAt_exact tk _ P hx hy h0
  refine ⟨by rw [hk, hP], ?_⟩
  rw [hadj, hk, hP]
  exact placedAt_exact tk _ P hx hy hb

/-- Witness of C2, amended: in binary64 the label set to `(30, 20)` with the
bottom 24 is at `(30, 20)` again after the bottom has become 40. -/
theorem reflow_stability_witness :
    (adjustItemPosition referenceToolkit 2
        (withBoundingBottom 40
          (itemChange referenceToolkit GraphicsItemChange.ItemPositionHasChanged
            (setPos referenceToolkit ⟨30, 20⟩ exampleItem)))).rawPos = ⟨30, 0⟩
    ∧ (pos referenceToolkit (adjustItemPosition referenceToolkit 2
        (withBoundingBottom 40
          (itemChange referenceToolkit GraphicsItemChange.ItemPositionHasChanged
            (setPos referenceToolkit ⟨30, 20⟩ exampleItem))))).y = 20
    ∧ pos referenceToolkit (adjustItemPosition referenceToolkit 2
        (withBoundingBottom 40
          (itemChange referenceToolkit GraphicsItemChange.ItemPositionHasChanged
            (setPos referenceToolkit ⟨30, 20⟩ exampleItem))))
      = ⟨30, 20⟩ :=
  ⟨by decide!, by decide!,
    ((reflow_stability referenceToolkit ⟨30, 20⟩ exampleItem exampleItem 40 2).2.2
      (by decide!) (by decide!) (by decide!) (by decide!)).2⟩

/-- C10, as the code has it. After `applyRotation(a)` then `applyRotation(b)`
the transform is not the rotation by `b` about the anchor: on an item without
transform, two calls with 90 degrees give the half turn. -/
theorem applyRotation_twice_composes :
    (applyRotation referenceToolkit 90 (applyRotation referenceToolkit 90 exampleItem)).transform
      ≠ rotationAbout referenceToolkit 90 (exampleItem.boundingBottom / 2)
    ∧ (applyRotation referenceToolkit 90
        (applyRotation referenceToolkit 90 exampleItem)).transform
      = rotationAbout referenceToolkit 180 (exampleItem.boundingBottom / 2) := by
  decide!

/-- C10, amended. `applyRotation(angle)` multiplies the rotation about the
anchor, translate(0, h/2) · rotate(angle) · translate(0, -h/2), onto the
transform in place; the result is that rotation alone when the transform has
been reset first, which is what `setPos` does. -/
theorem applyRotation_combines (tk : Toolkit) (angle : ℚ) (p : QPointF) (s : ElementTextItem) :
    (applyRotation tk angle s).transform
      = QTransform.mul tk (rotationAbout tk angle (tk.div s.boundingBottom 2)) s.transform
    ∧ (applyRotation tk angle (resetTransform tk s)).transform
      = rotationAbout tk angle (tk.div s.boundingBottom 2)
    ∧ (setPos tk p s).transform
      = rotationAbout tk s.rotation_angle_ (tk.div s.boundingBottom 2) := by
  refine ⟨?_, ?_, ?_⟩
  · simp [applyRotation, setTransform_transform, originOffset]
  · simp [applyRotation, resetTransform, setTransform_transform, mul_identity, originOffset]
  · simp [setPos, applyRotation, resetTransform, setTransform_transform, mul_identity,
      originOffset]

/-- C4, as the code has it. The test `pos() != originalPos()` of `toXml` is the
fuzzy comparison of points: a label whose anchor is `2 ^ (-43)` to the right of
its reference position differs from it, and `toXml` writes neither `userx` nor
`usery`. -/
theorem toXml_near_reference :
    pos referenceToolkit nearItem ≠ nearItem.original_position
    ∧ (toXml referenceToolkit nearItem).hasAttribute "userx" = false
    ∧ (toXml referenceToolkit nearItem).hasAttribute "usery" = false := by
  decide!

/-- C4, amended. Serialization defaulting: `toXml` always writes `x`, `y` (the
reference position) and `text` (the current text); it writes `userx` and
`usery`, with the current `pos()`, exactly when `pos()` and the reference
position differ by more than `0.000000000001` in one coordinate (the operator
`!=` of points); it writes `userrotation`, with the current angle, exactly when
the angle differs from the reference angle. -/
theorem toXml_attributes (tk : Toolkit) (s : ElementTextItem) :
    (toXml tk s).tagName = "input"
    ∧ ((toXml tk s).hasAttribute "x" = true
        ∧ (toXml tk s).attributeOf "x" = tk.arg s.original_position.x)
    ∧ ((toXml tk s).hasAttribute "y" = true
        ∧ (toXml tk s).attributeOf "y" = tk.arg s.original_position.y)
    ∧ ((toXml tk s).hasAttribute "text" = true ∧ (toXml tk s).attributeOf "text" = s.text)
    ∧ ((toXml tk s).hasAttribute "userx" = true
        ↔ (tk.epsilon < |tk.sub (pos tk s).x s.original_position.x|
          ∨ tk.epsilon < |tk.sub (pos tk s).y s.original_position.y|))
    ∧ ((toXml tk s).hasAttribute "usery" = true
        ↔ (tk.epsilon < |tk.sub (pos tk s).x s.original_position.x|
          ∨ tk.epsilon < |tk.sub (pos tk s).y s.original_position.y|))
    ∧ ((tk.epsilon < |tk.sub (pos tk s).x s.original_position.x|
          ∨ tk.epsilon < |tk.sub (pos tk s).y s.original_position.y|) →
        (toXml tk s).attributeOf "userx" = tk.arg (pos tk s).x
        ∧ (toXml tk s).attributeOf "usery" = tk.arg (pos tk s).y)
    ∧ ((toXml tk s).hasAttribute "userrotation" = true
        ↔ s.rotation_angle_ ≠ s.original_rotation_angle_)
    ∧ (s.rotation_angle_ ≠ s.original_rotation_angle_ →
        (toXml tk s).attributeOf "userrotation" = tk.arg s.rotation_angle_) := by
  refine ⟨toXml_tagName tk s, toXml_x tk s, toXml_y tk s, toXml_text tk s, ?_, ?_, ?_, ?_, ?_⟩
  · rw [(toXml_userx tk s).1, ne_iff]
  · rw [(toXml_usery tk s).1, ne_iff]
  · intro h
    have hne := (ne_iff tk (pos tk s) s.original_position).mpr h
    exact ⟨(toXml_userx tk s).2 hne, (toXml_usery tk s).2 hne⟩
  · rw [(toXml_userrotation tk s).1]; simp
  · exact (toXml_userrotation tk s).2

/-- Witness of C4, amended: the record of the moved and turned label carries its
position `(30, 20)` and its angle `90` next to the reference position. -/
theorem toXml_attributes_witness :
    (toXml referenceToolkit exampleItem).attributes
      = [("x", "10"), ("y", "10"), ("text", "T")]
    ∧ (toXml referenceToolkit movedItem).attributes
      = [("x", "10"), ("y", "10"), ("userx", "30"), ("usery", "20"), ("text", "K1"),
          ("userrotation", "90")]
    ∧ pos referenceToolkit movedItem = ⟨30, 20⟩
    ∧ movedItem.rotation_angle_ ≠ movedItem.original_rotation_angle_
    ∧ (toXml referenceToolkit movedItem).attributeOf "x" = "10"
    ∧ (toXml referenceToolkit movedItem).attributeOf "userx" = "30"
    ∧ (toXml referenceToolkit movedItem).attributeOf "usery" = "20"
    ∧ (toXml referenceToolkit movedItem).attributeOf "userrotation" = "90" := by
  have h := toXml_attributes referenceToolkit movedItem
  have hp : referenceToolkit.epsilon
        < |referenceToolkit.sub (pos referenceToolkit movedItem).x movedItem.original_position.x|
      ∨ referenceToolkit.epsilon
        < |referenceToolkit.sub (pos referenceToolkit movedItem).y
            movedItem.original_position.y| :=
    Or.inl (by decide!)
  have hr : movedItem.rotation_angle_ ≠ movedItem.original_rotation_angle_ := by decide!
  refine ⟨by decide!, by decide!, by decide!, hr, ?_, ?_, ?_, ?_⟩
  · rw [h.2.1.2]; decide!
  · rw [(h.2.2.2.2.2.2.1 hp).1]; decide!
  · rw [(h.2.2.2.2.2.2.1 hp).2]; decide!
  · rw [h.2.2.2.2.2.2.2.2 hr]; decide!

/-- C5. Deserialization identity guard: when `x` and `y` of the record both
match `pos()` (fuzzy comparison) `fromXml` gives the label the text of the
record; when one of them does not match, the label is left as it is, whatever
else the record carries. -/
theorem fromXml_identity_guard (tk : Toolkit) (e : QDomElement) (s : ElementTextItem) :
    ((qFuzzyCompare tk (attributeToDouble tk e "x") (pos tk s).x = true
        ∧ qFuzzyCompare tk (attributeToDouble tk e "y") (pos tk s).y = true) →
      (fromXml tk e s).text = e.attributeOf "text")
    ∧ (¬ (qFuzzyCompare tk (attributeToDouble tk e "x") (pos tk s).x = true
        ∧ qFuzzyCompare tk (attributeToDouble tk e "y") (pos tk s).y = true) →
      fromXml tk e s = s) := by
  constructor
  · intro h
    apply fromXml_text
    simp [positionMatches, h.1, h.2]
  · intro h
    apply fromXml_of_mismatch
    simp only [positionMatches]
    cases hx : qFuzzyCompare tk (attributeToDouble tk e "x") (pos tk s).x
    · rfl
    · cases hy : qFuzzyCompare tk (attributeToDouble tk e "y") (pos tk s).y
      · rfl
      · exact absurd ⟨hx, hy⟩ h

/-- Witness of C5: the label at `(10, 10)` takes the text `A` of the record at
`(10, 10)` and is left alone by the record at `(99, 99)`. -/
theorem fromXml_identity_guard_witness :
    fromXml referenceToolkit exampleRecord exampleItem = { exampleItem with text := "A" }
    ∧ pos referenceToolkit exampleItem = ⟨10, 10⟩
    ∧ (fromXml referenceToolkit exampleRecord exampleItem).text = "A"
    ∧ fromXml referenceToolkit otherRecord exampleItem = exampleItem :=
  ⟨by decide!, by decide!,
    (fromXml_identity_guard referenceToolkit exampleRecord exampleItem).1 (by decide!),
    (fromXml_identity_guard referenceToolkit otherRecord exampleItem).2 (by decide!)⟩

/-- C9. Optional attributes fail soft: on a record that passes the position
guard, a `userx` or `usery` that is missing or not a number has the effect of
the record without `userx` and `usery`: the label takes the text of the
record, its position is the one that the text replacement leaves, and a
numeric `userrotation` is applied. A `userrotation` that is missing or not a
number has the effect of the record without it: the label takes the text, keeps
its angle, and is placed at a numeric pair `userx`, `usery`. The result is
always a label: no error is raised. -/
theorem fromXml_optional_fail_soft (tk : Toolkit) (e : QDomElement) (s : ElementTextItem)
    (hguard : positionMatches tk e s = true) :
    ((notAReal tk e "userx" ∨ notAReal tk e "usery") →
      fromXml tk e s
        = fromXml tk ((e.removeAttribute "userx").removeAttribute "usery") s
      ∧ (fromXml tk e s).text = e.attributeOf "text"
      ∧ pos tk (fromXml tk e s) = pos tk (setPlainText tk (e.attributeOf "text") s)
      ∧ (∀ a, e.hasAttribute "userrotation" = true →
          tk.toDouble (e.attributeOf "userrotation") = some a →
          (fromXml tk e s).rotation_angle_ = correctAngle a))
    ∧ (notAReal tk e "userrotation" →
      fromXml tk e s = fromXml tk (e.removeAttribute "userrotation") s
      ∧ (fromXml tk e s).text = e.attributeOf "text"
      ∧ (fromXml tk e s).rotation_angle_ = s.rotation_angle_
      ∧ (∀ ux uy, e.hasAttribute "userx" = true →
          tk.toDouble (e.attributeOf "userx") = some ux →
          e.hasAttribute "usery" = true →
          tk.toDouble (e.attributeOf "usery") = some uy →
          pos tk (fromXml tk e s)
            = placedAt tk (tk.boundingBottomOf (e.attributeOf "text")) ⟨ux, uy⟩)) := by
  have hmatch : ∀ (r : QDomElement) (u : ElementTextItem), positionMatches tk r u = true →
      fromXml tk r u =
        (match attributeIsAReal tk r "userrotation" with
          | some a => setRotationAngle tk a
          | none => id)
        ((match attributeIsAReal tk r "userx", attributeIsAReal tk r "usery" with
          | some vx, some vy => setPosXY tk vx vy
          | _, _ => id)
        (setPlainText tk (r.attributeOf "text") u)) := by
    intro r u h
    simp only [fromXml, h, if_true]
    cases attributeIsAReal tk r "userrotation" <;>
      cases attributeIsAReal tk r "userx" <;>
      cases attributeIsAReal tk r "usery" <;> rfl
  have hnone : ∀ n : String, notAReal tk e n → attributeIsAReal tk e n = none := by
    intro n h
    unfold attributeIsAReal
    rcases h with h | h
    · simp [h]
    · simp [h]
  have hplain : ∀ (t : String) (u : ElementTextItem),
      (setPlainText tk t u).text = t
      ∧ (setPlainText tk t u).rotation_angle_ = u.rotation_angle_
      ∧ (setPlainText tk t u).boundingBottom = tk.boundingBottomOf t := by
    intro t u
    unfold setPlainText
    split <;> simp [adjustItemPosition]
  have hturn : ∀ (a : ℚ) (u : ElementTextItem),
      (setRotationAngle tk a u).rotation_angle_ = correctAngle a
      ∧ (setRotationAngle tk a u).text = u.text
      ∧ pos tk (setRotationAngle tk a u) = pos tk u := by
    intro a u
    simp [setRotationAngle, applyRotation, pos, originOffset]
  have hplace : ∀ (x y : ℚ) (u : ElementTextItem),
      pos tk (setPosXY tk x y u) = placedAt tk u.boundingBottom ⟨x, y⟩
      ∧ (setPosXY tk x y u).text = u.text
      ∧ (setPosXY tk x y u).rotation_angle_ = u.rotation_angle_ := by
    intro x y u
    refine ⟨?_, by simp [setPosXY], by simp [setPosXY]⟩
    simp only [setPosXY, setPos, applyRotation, pos, originOffset, resetTransform,
      setTransform_rawPos, setTransform_boundingBottom, baseSetPos_rawPos,
      baseSetPos_boundingBottom]
    rfl
  have htxt : (fromXml tk e s).text = e.attributeOf "text" := by
    rw [hmatch e s hguard]
    cases attributeIsAReal tk e "userrotation" <;>
      cases attributeIsAReal tk e "userx" <;>
      cases attributeIsAReal tk e "usery" <;>
      simp only [id, (hturn _ _).2.1, (hplace _ _ _).2.1, (hplain _ _).1]
  constructor
  · intro hmal
    have hg : positionMatches tk ((e.removeAttribute "userx").removeAttribute "usery") s
        = true := by
      rw [positionMatches_removeAttribute _ _ _ _ (by decide) (by decide),
        positionMatches_removeAttribute _ _ _ _ (by decide) (by decide), hguard]
    have hux : attributeIsAReal tk ((e.removeAttribute "userx").removeAttribute "usery")
        "userx" = none := by
      rw [attributeIsAReal_removeAttribute _ _ _ _ (by decide),
        attributeIsAReal_removeAttribute_self]
    have hrot : attributeIsAReal tk ((e.removeAttribute "userx").removeAttribute "usery")
        "userrotation" = attributeIsAReal tk e "userrotation" := by
      rw [attributeIsAReal_removeAttribute _ _ _ _ (by decide),
        attributeIsAReal_removeAttribute _ _ _ _ (by decide)]
    have htext : ((e.removeAttribute "userx").removeAttribute "usery").attributeOf "text"
        = e.attributeOf "text" := by
      rw [attributeOf_removeAttribute _ _ _ (by decide),
        attributeOf_removeAttribute _ _ _ (by decide)]
    have hsoft : fromXml tk e s
        = (match attributeIsAReal tk e "userrotation" with
            | some a => setRotationAngle tk a
            | none => id) (setPlainText tk (e.attributeOf "text") s) := by
      rw [hmatch e s hguard]
      rcases hmal with h | h
      · rw [hnone _ h]
        cases attributeIsAReal tk e "usery" <;> rfl
      · rw [hnone _ h]
        cases attributeIsAReal tk e "userx" <;> rfl
    refine ⟨?_, htxt, ?_, ?_⟩
    · rw [hsoft, hmatch _ s hg, hux, hrot, htext]
      cases attributeIsAReal tk ((e.removeAttribute "userx").removeAttribute "usery")
        "usery" <;> rfl
    · rw [hsoft]
      cases attributeIsAReal tk e "userrotation" <;> simp only [id, (hturn _ _).2.2]
    · intro a hhas ha
      have hreal : attributeIsAReal tk e "userrotation" = some a := by
        simp [attributeIsAReal, hhas, ha]
      rw [hsoft, hreal]
      exact (hturn _ _).1
  · intro hmal
    have hg : positionMatches tk (e.removeAttribute "userrotation") s = true := by
      rw [positionMatches_removeAttribute _ _ _ _ (by decide) (by decide), hguard]
    have hsoft : fromXml tk e s
        = (match attributeIsAReal tk e "userx", attributeIsAReal tk e "usery" with
            | some ux, some uy => setPosXY tk ux uy
            | _, _ => id) (setPlainText tk (e.attributeOf "text") s) := by
      rw [hmatch e s hguard, hnone _ hmal]
      rfl
    refine ⟨?_, htxt, ?_, ?_⟩
    · rw [hsoft, hmatch _ s hg, attributeIsAReal_removeAttribute_self,
        attributeIsAReal_removeAttribute _ _ _ _ (by decide),
        attributeIsAReal_removeAttribute _ _ _ _ (by decide),
        attributeOf_removeAttribute _ _ _ (by decide)]
      rfl
    · rw [hsoft]
      cases attributeIsAReal tk e "userx" <;> cases attributeIsAReal tk e "usery" <;>
        simp only [id, (hplace _ _ _).2.2, (hplain _ _).2.1]
    · intro ux uy hhx hx hhy hy
      have hrx : attributeIsAReal tk e "userx" = some ux := by
        simp [attributeIsAReal, hhx, hx]
      have hry : attributeIsAReal tk e "usery" = some uy := by
        simp [attributeIsAReal, hhy, hy]
      rw [hsoft, hrx, hry]
      simp only [(hplace _ _ _).1, (hplain _ _).2.2]

/-- Witness of C9: in binary64, on the label at `(10, 10)`, a record with
`userx="abc"` gives the text `A`, the angle 90 of its `userrotation="450"`, and
no move; a record with `usery="5mm"` gives the text `B` and no move; a record
with `userrotation="north"` gives the text `A`, the position `(3, 5)` of its
`userx` and `usery`, and no turn. -/
theorem fromXml_optional_fail_soft_witness :
    fromXml referenceToolkit malformedPositionRecord exampleItem
      = { exampleItem with text := "A", rotation_angle_ := 90,
                           transform := ⟨0, 1, -1, 0, 12, 12⟩ }
    ∧ fromXml referenceToolkit malformedOrdinateRecord exampleItem
      = { exampleItem with text := "B" }
    ∧ fromXml referenceToolkit malformedRotationRecord exampleItem
      = { exampleItem with text := "A", rawPos := ⟨3, -7⟩, known_position_ := ⟨3, 5⟩ }
    ∧ referenceToolkit.toDouble (malformedPositionRecord.attributeOf "userx") = none
    ∧ (fromXml referenceToolkit malformedPositionRecord exampleItem).text = "A"
    ∧ pos referenceToolkit (fromXml referenceToolkit malformedPositionRecord exampleItem)
      = ⟨10, 10⟩
    ∧ (fromXml referenceToolkit malformedPositionRecord exampleItem).rotation_angle_ = 90
    ∧ referenceToolkit.toDouble (malformedOrdinateRecord.attributeOf "usery") = none
    ∧ pos referenceToolkit (fromXml referenceToolkit malformedOrdinateRecord exampleItem)
      = ⟨10, 10⟩
    ∧ referenceToolkit.toDouble (malformedRotationRecord.attributeOf "userrotation") = none
    ∧ (fromXml referenceToolkit malformedRotationRecord exampleItem).text = "A"
    ∧ pos referenceToolkit (fromXml referenceToolkit malformedRotationRecord exampleItem)
      = ⟨3, 5⟩
    ∧ (fromXml referenceToolkit malformedRotationRecord exampleItem).rotation_angle_ = 0 :=
  have h1 := (fromXml_optional_fail_soft referenceToolkit malformedPositionRecord exampleItem
    (by decide!)).1 (Or.inl (Or.inr (by decide!)))
  have h3 := (fromXml_optional_fail_soft referenceToolkit malformedOrdinateRecord exampleItem
    (by decide!)).1 (Or.inr (Or.inr (by decide!)))
  have h2 := (fromXml_optional_fail_soft referenceToolkit malformedRotationRecord exampleItem
    (by decide!)).2 (Or.inr (by decide!))
  ⟨by decide!, by decide!, by decide!,
    by decide!, h1.2.1.trans (by decide!), h1.2.2.1.trans (by decide!),
    (h1.2.2.2 450 (by decide!) (by decide!)).trans (by decide!),
    by decide!, h3.2.2.1.trans (by decide!),
    by decide!, h2.2.1.trans (by decide!),
    (h2.2.2.2 3 5 (by decide!) (by decide!) (by decide!) (by decide!)).trans (by decide!),
    h2.2.2.1.trans (by decide!)⟩

/-- C7. Undo on release: with a diagram present, if the item is movable and the
aggregate movement `current_movement` is not null, `mouseReleaseEvent` pushes
one command, made of the texts to move and of the aggregate movement as they
were, and resets the aggregate movement; otherwise it pushes nothing and leaves
the aggregate movement as it is. -/
theorem mouseReleaseEvent_undo {α : Type} (ops : DiagramOps α)
    (e : QGraphicsSceneMouseEvent) (w : World α) (d : Diagram α) (hd : w.diagram = some d) :
    ((w.item.movable = true ∧ d.current_movement ≠ QPointF.zero) →
      (mouseReleaseEvent ops e w).diagram.map Diagram.undoStack
        = some (d.undoStack ++ [⟨ops.elementTextsToMove d, d.current_movement⟩])
      ∧ (mouseReleaseEvent ops e w).diagram.map Diagram.current_movement
        = some QPointF.zero)
    ∧ (¬ (w.item.movable = true ∧ d.current_movement ≠ QPointF.zero) →
      (mouseReleaseEvent ops e w).diagram.map Diagram.undoStack = some d.undoStack
      ∧ (mouseReleaseEvent ops e w).diagram.map Diagram.current_movement
        = some d.current_movement) := by
  obtain ⟨-, -, hdia⟩ := mouseReleaseEvent_eq ops e w d hd
  rw [hdia]
  constructor
  · intro h
    have hc : (w.item.movable && !d.current_movement.isNull) = true := by
      have hnull : d.current_movement.isNull = false := by
        cases hb : d.current_movement.isNull
        · rfl
        · exact absurd ((isNull_iff _).mp hb) h.2
      simp [h.1, hnull]
    simp [hc]
  · intro h
    have hc : ¬ ((w.item.movable && !d.current_movement.isNull) = true) := by
      intro hb
      simp only [Bool.and_eq_true, Bool.not_eq_true', ] at hb
      refine h ⟨hb.1, fun hz => ?_⟩
      rw [(isNull_iff _).mpr hz] at hb
      exact Bool.noConfusion hb.2
    simp [hc]

/-- Witness of C7: three texts dragged by `(5, 0)`; the release pushes the one
command for these texts and this movement, and the aggregate movement is null
afterwards. -/
theorem mouseReleaseEvent_undo_witness :
    (mouseReleaseEvent listDiagramOps releaseEvent
        (exampleWorld [7, 8, 9] ⟨5, 0⟩)).diagram.map Diagram.undoStack
      = some [⟨[7, 8, 9], ⟨5, 0⟩⟩]
    ∧ (mouseReleaseEvent listDiagramOps releaseEvent
        (exampleWorld [7, 8, 9] ⟨5, 0⟩)).diagram.map Diagram.current_movement
      = some ⟨0, 0⟩
    ∧ (mouseReleaseEvent listDiagramOps releaseEvent
        (exampleWorld [7, 8, 9] ⟨0, 0⟩)).diagram.map Diagram.undoStack
      = some []
    ∧ (exampleWorld [7, 8, 9] ⟨5, 0⟩).item.movable = true
    ∧ (mouseReleaseEvent listDiagramOps releaseEvent
        (exampleWorld [7, 8, 9] ⟨5, 0⟩)).diagram.map Diagram.undoStack
      = some ([] ++ [⟨[7, 8, 9], ⟨5, 0⟩⟩])
    ∧ (mouseReleaseEvent listDiagramOps releaseEvent
        (exampleWorld [7, 8, 9] ⟨5, 0⟩)).diagram.map Diagram.current_movement
      = some QPointF.zero :=
  ⟨by decide!, by decide!, by decide!, rfl,
    (mouseReleaseEvent_undo listDiagramOps releaseEvent (exampleWorld [7, 8, 9] ⟨5, 0⟩)
      ⟨⟨5, 0⟩, [], [7, 8, 9]⟩ rfl).1 ⟨rfl, by decide!⟩⟩

/-- C8. Single-drag highlight: in a drag session (move events with the left
button held, on a movable item that is not being edited, then a release) that
starts armed, with a diagram and a parent element and a constant number `n` of
texts to move: for `n = 1` the parent receives `setHighlighted(true)` once, at
the first move event, and `setHighlighted(false)` once, at the release, after
which the item is armed again; for `n > 1` it receives no such call. -/
theorem single_drag_highlight {α : Type} (tk : Toolkit) (fm : FrameMaps) (ops : DiagramOps α)
    (n : Nat) (w : World α) (e : QGraphicsSceneMouseEvent)
    (es : List QGraphicsSceneMouseEvent) (release : QGraphicsSceneMouseEvent)
    (hcount : ∀ mv me d, (ops.elementTextsToMove (ops.moveElementsTexts mv me d)).length
      = (ops.elementTextsToMove d).length)
    (hw : dragSetting ops n w)
    (harmed : w.item.first_move_ = true)
    (hl : ∀ ev ∈ e :: es, ev.leftButton = true) :
    (n = 1 →
      highlightLog (mouseMoveEvent tk fm ops e w) = highlightLog w ++ [true]
      ∧ highlightLog (dragMoves tk fm ops (e :: es) w) = highlightLog w ++ [true]
      ∧ highlightLog (dragSession tk fm ops (e :: es) release w)
        = highlightLog w ++ [true, false]
      ∧ (dragSession tk fm ops (e :: es) release w).item.first_move_ = true)
    ∧ (1 < n →
      highlightLog (mouseMoveEvent tk fm ops e w) = highlightLog w
      ∧ highlightLog (dragMoves tk fm ops (e :: es) w) = highlightLog w
      ∧ highlightLog (dragSession tk fm ops (e :: es) release w) = highlightLog w) := by
  obtain ⟨hs, hfirst, hother⟩ := mouseMoveEvent_step tk fm ops n e w hcount hw (hl e (by simp))
  have hles : ∀ ev ∈ es, ev.leftButton = true := fun ev hev => hl ev (by simp [hev])
  constructor
  · intro hone
    obtain ⟨hlog1, hfm1⟩ := hfirst ⟨hone, harmed⟩
    have hq : ¬ (n = 1 ∧ (mouseMoveEvent tk fm ops e w).item.first_move_ = true) := by
      rw [hfm1]; simp
    obtain ⟨hs2, hlog2, -⟩ :=
      dragMoves_quiet tk fm ops n hcount es (mouseMoveEvent tk fm ops e w) hs hles hq
    have hmoves : highlightLog (dragMoves tk fm ops (e :: es) w) = highlightLog w ++ [true] := by
      show highlightLog (dragMoves tk fm ops es (mouseMoveEvent tk fm ops e w)) = _
      rw [hlog2, hlog1]
    obtain ⟨hrel, -⟩ := mouseReleaseEvent_highlight ops n release
      (dragMoves tk fm ops es (mouseMoveEvent tk fm ops e w)) hs2
    obtain ⟨hlog3, hfm3⟩ := hrel hone
    refine ⟨hlog1, hmoves, ?_, ?_⟩
    · show highlightLog (mouseReleaseEvent ops release
        (dragMoves tk fm ops es (mouseMoveEvent tk fm ops e w))) = _
      rw [hlog3, hlog2, hlog1]
      simp
    · exact hfm3
  · intro hmany
    have hne : n ≠ 1 := by omega
    have hq0 : ¬ (n = 1 ∧ w.item.first_move_ = true) := fun h => hne h.1
    obtain ⟨hlog1, -⟩ := hother hq0
    have hq : ¬ (n = 1 ∧ (mouseMoveEvent tk fm ops e w).item.first_move_ = true) :=
      fun h => hne h.1
    obtain ⟨hs2, hlog2, -⟩ :=
      dragMoves_quiet tk fm ops n hcount es (mouseMoveEvent tk fm ops e w) hs hles hq
    have hmoves : highlightLog (dragMoves tk fm ops (e :: es) w) = highlightLog w := by
      show highlightLog (dragMoves tk fm ops es (mouseMoveEvent tk fm ops e w)) = _
      rw [hlog2, hlog1]
    obtain ⟨-, hrel⟩ := mouseReleaseEvent_highlight ops n release
      (dragMoves tk fm ops es (mouseMoveEvent tk fm ops e w)) hs2
    refine ⟨hlog1, hmoves, ?_⟩
    show highlightLog (mouseReleaseEvent ops release
      (dragMoves tk fm ops es (mouseMoveEvent tk fm ops e w))) = _
    rw [(hrel hne).1, hlog2, hlog1]

/-- Witness of C8: a drag of the single text 7 over two move events highlights
the parent at the start and stops at the release; the same drag with three
texts calls `setHighlighted` never. -/
theorem single_drag_highlight_witness :
    (mouseMoveEvent referenceToolkit plainFrameMaps listDiagramOps moveRight
        (exampleWorld [7] QPointF.zero)).parent_element_ = some ⟨[true], 1⟩
    ∧ (dragSession referenceToolkit plainFrameMaps listDiagramOps
        [moveRight, moveRight] releaseEvent (exampleWorld [7] QPointF.zero)).parent_element_
      = some ⟨[true, false], 1⟩
    ∧ (dragSession referenceToolkit plainFrameMaps listDiagramOps
        [moveRight, moveRight] releaseEvent (exampleWorld [7] QPointF.zero)).item.first_move_
      = true
    ∧ (dragSession referenceToolkit plainFrameMaps listDiagramOps
        [moveRight, moveRight] releaseEvent
        (exampleWorld [7, 8, 9] QPointF.zero)).parent_element_ = some ⟨[], 0⟩
    ∧ highlightLog (dragSession referenceToolkit plainFrameMaps listDiagramOps
        [moveRight, moveRight] releaseEvent (exampleWorld [7] QPointF.zero))
      = highlightLog (exampleWorld [7] QPointF.zero) ++ [true, false]
    ∧ highlightLog (dragSession referenceToolkit plainFrameMaps listDiagramOps
        [moveRight, moveRight] releaseEvent (exampleWorld [7, 8, 9] QPointF.zero))
      = highlightLog (exampleWorld [7, 8, 9] QPointF.zero) :=
  ⟨by decide!, by decide!, by decide!, by decide!,
    ((single_drag_highlight referenceToolkit plainFrameMaps listDiagramOps 1
      (exampleWorld [7] QPointF.zero) moveRight [moveRight] releaseEvent
      listDiagramOps_count (exampleWorld_dragSetting [7] QPointF.zero) rfl
      (by decide)).1 rfl).2.2.1,
    ((single_drag_highlight referenceToolkit plainFrameMaps listDiagramOps 3
      (exampleWorld [7, 8, 9] QPointF.zero) moveRight [moveRight] releaseEvent
      listDiagramOps_count (exampleWorld_dragSetting [7, 8, 9] QPointF.zero) rfl
      (by decide)).2 (by decide)).2.2⟩



end QET
